import Mathlib

/-!
Verification of the regobrick conversion library against its specification.

This file gives a shallow embedding, in Lean, of the parts of the
repository that the checked claims are about:

* the Rego value algebra (`ast.Value`: null, boolean, string, number as
  exact text, array, object, set) as `RegoValue`;
* the host (Go) side: runtime values as `GoValue` and static target types
  as `GoType`, with struct-field metadata (name, json tag, exportedness);
* the decoder `convert/rego2go.go` (`RegoToGo`, `assignRegoValueToGo`,
  `convertRegoObjectToStruct`, `convertRegoArrayToSlice`,
  `convertRegoObjectOrSetToMap`, `parseRegoNumberInto`,
  `convertRegoValueToInterface`, `convertRegoToNullDecimal`,
  `convertRegoNumberToDecimal`, `getStructFieldKey`);
* the encoder (`GoToRego` / `goValueToAst`);
* the function adapters `convert/fn_wrap.go` (`fnWrapNConvert`, `FnWrapN`,
  `FnWrapN_`);
* the module transform (`addDefaultFalse`, `hasImportRegobrickFeature`);
* the behaviour of the external libraries the code delegates to, modelled
  from their published semantics: `strconv.ParseInt`, `strconv.ParseUint`
  (base 10), and the shopspring decimal type (`Decimal.String`,
  `decimal.NewFromString`).

Machine integers are modelled as `Int`/`Nat` with explicit range checks
where the code performs them.  Errors are modelled as `Except String`;
error texts follow the Go format strings (with formatted fragments
concatenated in, quote characters elided).
-/

namespace Regobrick

/-! ## Decimal digit strings

Go renders integers (both `strconv` and `math/big`) in base 10 with the
usual digit characters and an optional leading minus sign.  The helpers
below model that rendering and its inverse.  `natDigitsAux` carries the
number itself as structural fuel so that evaluation reduces by `rfl`.
-/

/-- Little-endian base-10 digits of `n`; `[]` for `0`.  The first
argument is fuel, always instantiated with `n` itself. -/
def natDigitsAux : Nat → Nat → List Nat
  | 0, _ => []
  | _ + 1, 0 => []
  | fuel + 1, n => (n % 10) :: natDigitsAux fuel (n / 10)

/-- Little-endian base-10 digits of `n` (empty for 0). -/
def natDigitsLE (n : Nat) : List Nat := natDigitsAux n n

/-- Value of a big-endian digit list. -/
def valBE (ds : List Nat) : Nat := ds.foldl (fun a d => 10 * a + d) 0

/-- Value of a little-endian digit list. -/
def valLE : List Nat → Nat
  | [] => 0
  | d :: ds => d + 10 * valLE ds

theorem valBE_foldl_shift (ds : List Nat) (a : Nat) :
    ds.foldl (fun a d => 10 * a + d) a = a * 10 ^ ds.length + valBE ds := by
  induction ds generalizing a with
  | nil => simp [valBE]
  | cons d ds ih =>
    simp only [List.foldl_cons, List.length_cons, valBE]
    rw [ih (10 * a + d), ih (10 * 0 + d)]
    ring

theorem valBE_append (xs ys : List Nat) :
    valBE (xs ++ ys) = valBE xs * 10 ^ ys.length + valBE ys := by
  simp only [valBE, List.foldl_append]
  rw [valBE_foldl_shift]
  rfl

theorem valBE_cons (d : Nat) (ds : List Nat) :
    valBE (d :: ds) = d * 10 ^ ds.length + valBE ds := by
  have h := valBE_append [d] ds
  simpa [valBE] using h

theorem valBE_reverse_eq_valLE (ds : List Nat) : valBE ds.reverse = valLE ds := by
  induction ds with
  | nil => rfl
  | cons d ds ih =>
    simp only [List.reverse_cons, valLE, valBE_append, ih]
    simp [valBE]
    ring

theorem valLE_natDigitsAux (fuel n : Nat) (h : n ≤ fuel) :
    valLE (natDigitsAux fuel n) = n := by
  induction fuel generalizing n with
  | zero =>
    interval_cases n
    rfl
  | succ fuel ih =>
    match n with
    | 0 => rfl
    | m + 1 =>
      simp only [natDigitsAux, valLE]
      rw [ih ((m + 1) / 10) (by omega)]
      omega

theorem valLE_natDigitsLE (n : Nat) : valLE (natDigitsLE n) = n :=
  valLE_natDigitsAux n n le_rfl

theorem natDigitsAux_lt_ten (fuel n : Nat) : ∀ d ∈ natDigitsAux fuel n, d < 10 := by
  induction fuel generalizing n with
  | zero => simp [natDigitsAux]
  | succ fuel ih =>
    match n with
    | 0 => simp [natDigitsAux]
    | m + 1 =>
      simp only [natDigitsAux, List.mem_cons]
      rintro d (rfl | hd)
      · omega
      · exact ih _ d hd

theorem natDigitsLE_lt_ten (n : Nat) : ∀ d ∈ natDigitsLE n, d < 10 :=
  natDigitsAux_lt_ten n n

theorem natDigitsLE_ne_nil (n : Nat) (h : n ≠ 0) : natDigitsLE n ≠ [] := by
  match n, h with
  | m + 1, _ => simp [natDigitsLE, natDigitsAux]

/-- The character of a decimal digit. -/
def digitChar (d : Nat) : Char := Char.ofNat (48 + d)

/-- Is `c` one of the characters 0 through 9. -/
def isDigitChar (c : Char) : Bool := 48 ≤ c.toNat && c.toNat ≤ 57

/-- Numeric value of a digit character. -/
def charVal (c : Char) : Nat := c.toNat - 48

theorem charVal_digitChar {d : Nat} (h : d < 10) : charVal (digitChar d) = d := by
  interval_cases d <;> decide

theorem isDigitChar_digitChar {d : Nat} (h : d < 10) : isDigitChar (digitChar d) = true := by
  interval_cases d <;> decide

theorem digitChar_ne {d : Nat} (h : d < 10) :
    digitChar d ≠ '.' ∧ digitChar d ≠ '-' ∧ digitChar d ≠ '+' ∧
    digitChar d ≠ 'e' ∧ digitChar d ≠ 'E' := by
  interval_cases d <;> decide

/-- The character test `c == '0'` (the trailing-zero trim loop). -/
def isZeroChar (c : Char) : Bool := c == '0'

/-- The character test `c != '.'` (scanning for the decimal point). -/
def notDot (c : Char) : Bool := c != '.'

/-- The character test for `strings.IndexAny(value, "Ee")`. -/
def notExp (c : Char) : Bool := c != 'e' && c != 'E'

/-- The character test `c == '.'`. -/
def isDot (c : Char) : Bool := c == '.'

/-- Base-10 rendering of a natural number, big-endian characters
(`"0"` for zero), as `math/big` and `strconv` produce it. -/
def natChars (n : Nat) : List Char :=
  if n = 0 then ['0'] else ((natDigitsLE n).reverse.map digitChar)

/-- Base-10 rendering of an integer, with a leading minus sign when
negative, as `math/big` `Int.String` produces it. -/
def intChars (z : Int) : List Char :=
  (if z < 0 then ['-'] else []) ++ natChars z.natAbs

theorem natChars_ne_nil (n : Nat) : natChars n ≠ [] := by
  unfold natChars
  split
  · simp
  · rename_i h
    have := natDigitsLE_ne_nil n h
    simp_all

theorem natChars_digits (n : Nat) : ∀ c ∈ natChars n, ∃ d, d < 10 ∧ c = digitChar d := by
  unfold natChars
  split
  · rintro c hc
    simp only [List.mem_singleton] at hc
    exact ⟨0, by omega, by simp [hc]; rfl⟩
  · intro c hc
    simp only [List.mem_map, List.mem_reverse] at hc
    obtain ⟨d, hd, rfl⟩ := hc
    exact ⟨d, natDigitsLE_lt_ten n d hd, rfl⟩

theorem valBE_charVal_natChars (n : Nat) : valBE ((natChars n).map charVal) = n := by
  unfold natChars
  split
  · simp_all [valBE, charVal]
  · rename_i h
    have hmap : ((natDigitsLE n).reverse.map digitChar).map charVal = (natDigitsLE n).reverse := by
      rw [List.map_map]
      have hcong : ∀ d ∈ (natDigitsLE n).reverse, (charVal ∘ digitChar) d = id d := by
        intro d hd
        simp only [Function.comp_apply, id_eq]
        exact charVal_digitChar (natDigitsLE_lt_ten n d (List.mem_reverse.mp hd))
      rw [List.map_congr_left hcong, List.map_id]
    rw [hmap, valBE_reverse_eq_valLE, valLE_natDigitsLE]

theorem natChars_all_digit (n : Nat) : (natChars n).all isDigitChar = true := by
  rw [List.all_eq_true]
  intro c hc
  obtain ⟨d, hd, rfl⟩ := natChars_digits n c hc
  exact isDigitChar_digitChar hd

/-! ## strconv (Go standard library), base-10 integer parsing

`strconv.ParseInt(s, 10, bitSize)` accepts an optional single leading
sign (`+` or `-`) followed by a non-empty run of decimal digits; a value
outside the bit-size range yields `ErrRange`, anything else syntactically
wrong yields `ErrSyntax`.  `strconv.ParseUint` accepts no sign at all.
-/

/-- A non-empty all-digit run, read as a natural number. -/
def readDigits (cs : List Char) : Option Nat :=
  if !cs.isEmpty && cs.all isDigitChar then some (valBE (cs.map charVal)) else none

/-- Optional sign followed by a non-empty digit run, read as an integer
(the accepted syntax of `strconv.ParseInt` at base 10, also of
`math/big` `Int.SetString` at base 10). -/
def readSigned (cs : List Char) : Option Int :=
  match cs with
  | [] => none
  | c :: rest =>
      if c = '-' then
        match readDigits rest with
        | none => none
        | some n => some (-(n : Int))
      else if c = '+' then
        match readDigits rest with
        | none => none
        | some n => some ((n : Int))
      else
        match readDigits (c :: rest) with
        | none => none
        | some n => some ((n : Int))

/-- Model of `strconv.ParseInt(s, 10, 64)`. -/
def goParseInt64 (s : String) : Except String Int :=
  match readSigned s.data with
  | none => .error ("strconv.ParseInt: parsing " ++ s ++ ": invalid syntax")
  | some n =>
      if n < -(2 ^ 63 : Int) ∨ (2 ^ 63 : Int) - 1 < n then
        .error ("strconv.ParseInt: parsing " ++ s ++ ": value out of range")
      else .ok n

/-- Model of `strconv.ParseUint(s, 10, 64)`. -/
def goParseUint64 (s : String) : Except String Nat :=
  match readDigits s.data with
  | none => .error ("strconv.ParseUint: parsing " ++ s ++ ": invalid syntax")
  | some n =>
      if (2 ^ 64 : Nat) - 1 < n then
        .error ("strconv.ParseUint: parsing " ++ s ++ ": value out of range")
      else .ok n

/-! ## The shopspring decimal type

`decimal.Decimal` is a coefficient (`math/big` integer) together with an
`int32` exponent; the represented number is `value * 10 ^ exp`.
`Decimal.String` renders with trailing fractional zeros trimmed;
`decimal.NewFromString` parses optional scientific notation and an
optional fractional part.  Both are modelled here from the library
sources (the `int32` exponent bound checks included).
-/

/-- A decimal number: `value * 10 ^ exp`.  In Go the exponent is an
`int32`; theorems about round-trips carry that bound as a hypothesis. -/
structure Dec where
  value : Int
  exp : Int
  deriving Repr, DecidableEq

/-- The rational number a `Dec` represents. -/
def Dec.toRat (d : Dec) : ℚ := (d.value : ℚ) * (10 : ℚ) ^ d.exp

/-- Remove trailing `0` characters (the `trimTrailingZeros` loop of
`Decimal.string`). -/
def trimRightZeros (cs : List Char) : List Char :=
  ((cs.reverse).dropWhile isZeroChar).reverse

/-- `Decimal.String()`: for a non-negative exponent, the plain integer
rendering of `value * 10 ^ exp`; otherwise the digit string of `|value|`
split into integer and fractional parts, trailing fractional zeros
trimmed, with a minus sign for a negative coefficient. -/
def decToChars (d : Dec) : List Char :=
  if 0 ≤ d.exp then
    intChars (d.value * (10 : Int) ^ d.exp.toNat)
  else
    let str := natChars d.value.natAbs
    let k := (-d.exp).toNat
    let ipfp : List Char × List Char :=
      if k < str.length then
        (str.take (str.length - k), str.drop (str.length - k))
      else
        (['0'], List.replicate (k - str.length) '0' ++ str)
    let fp := trimRightZeros ipfp.2
    let number := ipfp.1 ++ (if fp.isEmpty then [] else '.' :: fp)
    if d.value < 0 then '-' :: number else number

/-- `Decimal.String()` as a string. -/
def decString (d : Dec) : String := ⟨decToChars d⟩

/-- The part of `decimal.NewFromString` after the exponent suffix has
been split off: split at the first dot, reject a second dot, parse the
concatenated digits as a signed integer, and fold the fractional length
into the exponent, which must fit in an `int32`. -/
def newFromStringCore (orig : String) (v : List Char) (exp0 : Int) : Except String Dec :=
  let p1 := v.takeWhile notDot
  let rest := v.dropWhile notDot
  match rest with
  | [] =>
      match readSigned v with
      | none => .error ("cannot convert " ++ orig ++ " to decimal")
      | some n =>
          if exp0 < -(2 ^ 31 : Int) ∨ (2 ^ 31 : Int) - 1 < exp0 then
            .error ("cannot convert " ++ orig ++ " to decimal: fractional part too long")
          else .ok ⟨n, exp0⟩
  | _ :: p2 =>
      if p2.any isDot then
        .error ("cannot convert " ++ orig ++ " to decimal: too many dots")
      else
        match readSigned (p1 ++ p2) with
        | none => .error ("cannot convert " ++ orig ++ " to decimal")
        | some n =>
            let e := exp0 - p2.length
            if e < -(2 ^ 31 : Int) ∨ (2 ^ 31 : Int) - 1 < e then
              .error ("cannot convert " ++ orig ++ " to decimal: fractional part too long")
            else .ok ⟨n, e⟩

/-- `decimal.NewFromString`: split off an optional `e`/`E` exponent
suffix (parsed as an `int32`), then parse the mantissa. -/
def newFromString (s : String) : Except String Dec :=
  let cs := s.data
  let pre := cs.takeWhile notExp
  let post := cs.dropWhile notExp
  match post with
  | [] => newFromStringCore s pre 0
  | _ :: expPart =>
      match readSigned expPart with
      | none => .error ("cannot convert " ++ s ++ " to decimal: exponent is not numeric")
      | some e0 =>
          if e0 < -(2 ^ 31 : Int) ∨ (2 ^ 31 : Int) - 1 < e0 then
            .error ("cannot convert " ++ s ++ " to decimal: exponent is not numeric")
          else newFromStringCore s pre e0

/-! ### Helper lemmas about digit runs and parsing -/

theorem isDigitChar_ne_special {c : Char} (h : isDigitChar c = true) :
    c ≠ '.' ∧ c ≠ '-' ∧ c ≠ '+' ∧ c ≠ 'e' ∧ c ≠ 'E' := by
  refine ⟨?_, ?_, ?_, ?_, ?_⟩ <;>
    { intro heq; rw [heq] at h; exact absurd h (by decide) }

theorem takeWhile_of_all {p : Char → Bool} {xs : List Char}
    (h : ∀ c ∈ xs, p c = true) : xs.takeWhile p = xs := by
  induction xs with
  | nil => rfl
  | cons x xs ih =>
    have hx := h x (List.mem_cons_self x xs)
    have hrest := ih (fun c hc => h c (List.mem_cons_of_mem x hc))
    simp [List.takeWhile_cons, hx, hrest]

theorem dropWhile_of_all {p : Char → Bool} {xs : List Char}
    (h : ∀ c ∈ xs, p c = true) : xs.dropWhile p = [] := by
  induction xs with
  | nil => rfl
  | cons x xs ih =>
    have hx := h x (List.mem_cons_self x xs)
    have hrest := ih (fun c hc => h c (List.mem_cons_of_mem x hc))
    simp [List.dropWhile_cons, hx, hrest]

theorem takeWhile_append_stop {p : Char → Bool} {xs : List Char} {y : Char} (ys : List Char)
    (hxs : ∀ c ∈ xs, p c = true) (hy : p y = false) :
    (xs ++ y :: ys).takeWhile p = xs := by
  induction xs with
  | nil => simp [List.takeWhile_cons, hy]
  | cons x xs ih =>
    have hx := hxs x (List.mem_cons_self x xs)
    have hrest := ih (fun c hc => hxs c (List.mem_cons_of_mem x hc))
    simp [List.takeWhile_cons, hx, hrest]

theorem dropWhile_append_stop {p : Char → Bool} {xs : List Char} {y : Char} (ys : List Char)
    (hxs : ∀ c ∈ xs, p c = true) (hy : p y = false) :
    (xs ++ y :: ys).dropWhile p = y :: ys := by
  induction xs with
  | nil => simp [List.dropWhile_cons, hy]
  | cons x xs ih =>
    have hx := hxs x (List.mem_cons_self x xs)
    have hrest := ih (fun c hc => hxs c (List.mem_cons_of_mem x hc))
    simp [List.dropWhile_cons, hx, hrest]

theorem readDigits_of_digits {ds : List Char} (hne : ds ≠ [])
    (hdig : ∀ c ∈ ds, isDigitChar c = true) :
    readDigits ds = some (valBE (ds.map charVal)) := by
  have h1 : ds.isEmpty = false := by
    cases ds with
    | nil => exact absurd rfl hne
    | cons d rest => rfl
  have h2 : ds.all isDigitChar = true := List.all_eq_true.mpr hdig
  unfold readDigits
  simp [h1, h2]

/-- The sign applied by `strconv`-style parsing. -/
def signVal (sgn : Bool) (n : Nat) : Int := if sgn then -(n : Int) else (n : Int)

theorem readSigned_mk (sgn : Bool) {ds : List Char} (hne : ds ≠ [])
    (hdig : ∀ c ∈ ds, isDigitChar c = true) :
    readSigned ((if sgn then ['-'] else []) ++ ds) = some (signVal sgn (valBE (ds.map charVal))) := by
  cases sgn with
  | true =>
    simp only [List.cons_append, List.nil_append, if_true]
    simp [readSigned, readDigits_of_digits hne hdig, signVal]
  | false =>
    show readSigned ds = some (signVal false (valBE (ds.map charVal)))
    match ds, hne with
    | d :: rest, _ =>
      have hd := hdig d (List.mem_cons_self d rest)
      obtain ⟨_, hminus, hplus, _, _⟩ := isDigitChar_ne_special hd
      simp [readSigned, hminus, hplus, readDigits_of_digits (List.cons_ne_nil d rest) hdig,
        signVal]

theorem valBE_replicate_zero (t : Nat) : valBE (List.replicate t 0) = 0 := by
  induction t with
  | zero => rfl
  | succ t ih =>
    rw [List.replicate_succ, valBE_cons, ih]
    simp

theorem valBE_map_replicate_zero (t : Nat) :
    valBE ((List.replicate t '0').map charVal) = 0 := by
  rw [List.map_replicate]
  have : charVal '0' = 0 := rfl
  rw [this, valBE_replicate_zero]

theorem trimRightZeros_spec (cs : List Char) :
    ∃ t, cs = trimRightZeros cs ++ List.replicate t '0' := by
  refine ⟨(cs.reverse.takeWhile isZeroChar).length, ?_⟩
  conv_lhs => rw [← List.reverse_reverse cs]
  conv_lhs => rw [← List.takeWhile_append_dropWhile (p := isZeroChar) (l := cs.reverse)]
  rw [List.reverse_append]
  unfold trimRightZeros
  congr 1
  have : cs.reverse.takeWhile isZeroChar =
      List.replicate (cs.reverse.takeWhile isZeroChar).length '0' := by
    apply List.eq_replicate_of_mem
    intro b hb
    have hz := List.mem_takeWhile_imp hb
    simpa [isZeroChar] using hz
  rw [this, List.reverse_replicate, List.length_replicate]

theorem notDot_of_digit {c : Char} (h : isDigitChar c = true) : notDot c = true := by
  obtain ⟨h1, _, _, _, _⟩ := isDigitChar_ne_special h
  simp [notDot, h1]

theorem notExp_of_digit {c : Char} (h : isDigitChar c = true) : notExp c = true := by
  obtain ⟨_, _, _, h4, h5⟩ := isDigitChar_ne_special h
  simp [notExp, h4, h5]

theorem isDot_of_digit {c : Char} (h : isDigitChar c = true) : isDot c = false := by
  obtain ⟨h1, _, _, _, _⟩ := isDigitChar_ne_special h
  simp [isDot, h1]

theorem newFromString_plainB (sgn : Bool) {ds : List Char} (hne : ds ≠ [])
    (hdig : ∀ c ∈ ds, isDigitChar c = true) :
    newFromString ⟨(if sgn then ['-'] else []) ++ ds⟩ =
      .ok ⟨signVal sgn (valBE (ds.map charVal)), 0⟩ := by
  have hpre : ∀ c ∈ (if sgn then ['-'] else []), c = '-' := by
    cases sgn <;> simp
  have hallE : ∀ c ∈ (if sgn then ['-'] else []) ++ ds, notExp c = true := by
    intro c hc
    rcases List.mem_append.mp hc with h | h
    · rw [hpre c h]; decide
    · exact notExp_of_digit (hdig c h)
  have hallD : ∀ c ∈ (if sgn then ['-'] else []) ++ ds, notDot c = true := by
    intro c hc
    rcases List.mem_append.mp hc with h | h
    · rw [hpre c h]; decide
    · exact notDot_of_digit (hdig c h)
  unfold newFromString
  simp only [takeWhile_of_all hallE, dropWhile_of_all hallE]
  unfold newFromStringCore
  simp only [takeWhile_of_all hallD, dropWhile_of_all hallD]
  rw [readSigned_mk sgn hne hdig]
  have hb : ¬((0 : Int) < -(2 ^ 31 : Int) ∨ (2 ^ 31 : Int) - 1 < (0 : Int)) := by
    push_neg
    constructor <;> norm_num
  simp [hb]

theorem newFromString_dottedB (sgn : Bool) {ip fp : List Char}
    (hipne : ip ≠ []) (hipd : ∀ c ∈ ip, isDigitChar c = true)
    (hfpne : fp ≠ []) (hfpd : ∀ c ∈ fp, isDigitChar c = true)
    (hlen : -(2 ^ 31 : Int) ≤ -(fp.length : Int)) :
    newFromString ⟨(if sgn then ['-'] else []) ++ (ip ++ '.' :: fp)⟩ =
      .ok ⟨signVal sgn (valBE ((ip ++ fp).map charVal)), -(fp.length : Int)⟩ := by
  have hpre : ∀ c ∈ (if sgn then ['-'] else []), c = '-' := by
    cases sgn <;> simp
  have hfrontD : ∀ c ∈ (if sgn then ['-'] else []) ++ ip, notDot c = true := by
    intro c hc
    rcases List.mem_append.mp hc with h | h
    · rw [hpre c h]; decide
    · exact notDot_of_digit (hipd c h)
  have hallE : ∀ c ∈ (if sgn then ['-'] else []) ++ (ip ++ '.' :: fp), notExp c = true := by
    intro c hc
    rcases List.mem_append.mp hc with h | h
    · rw [hpre c h]; decide
    · rcases List.mem_append.mp h with h | h
      · exact notExp_of_digit (hipd c h)
      · rcases List.mem_cons.mp h with rfl | h
        · decide
        · exact notExp_of_digit (hfpd c h)
  have hsplit : (if sgn then ['-'] else []) ++ (ip ++ '.' :: fp) =
      ((if sgn then ['-'] else []) ++ ip) ++ '.' :: fp := by
    rw [List.append_assoc]
  unfold newFromString
  simp only [takeWhile_of_all hallE, dropWhile_of_all hallE]
  unfold newFromStringCore
  rw [hsplit, takeWhile_append_stop fp hfrontD (by decide),
    dropWhile_append_stop fp hfrontD (by decide)]
  have hnoDot : fp.any isDot = false := by
    rw [Bool.eq_false_iff]
    intro hany
    obtain ⟨c, hc, hdot⟩ := List.any_eq_true.mp hany
    rw [isDot_of_digit (hfpd c hc)] at hdot
    exact Bool.false_ne_true hdot
  simp only [hnoDot, Bool.false_eq_true, if_false]
  rw [List.append_assoc]
  rw [readSigned_mk sgn (by simp [hipne]) ?hdigs]
  case hdigs =>
    intro c hc
    rcases List.mem_append.mp hc with h | h
    · exact hipd c h
    · exact hfpd c h
  have hb : ¬(-(fp.length : Int) < -(2 ^ 31 : Int) ∨
      (2 ^ 31 : Int) - 1 < -(fp.length : Int)) := by
    push_neg
    constructor <;> omega
  have hlen2 : (fp.length : Int) ≤ 2147483648 := by
    have hpow : ((2 : Int) ^ 31) = 2147483648 := by norm_num
    omega
  simp [hb]
  omega

theorem dec_toRat_shift (n1 n2 : Int) (t k : Nat) (h : n2 * 10 ^ t = n1) :
    Dec.toRat ⟨n2, (t : Int) - (k : Int)⟩ = Dec.toRat ⟨n1, -(k : Int)⟩ := by
  unfold Dec.toRat
  have h10 : (10 : ℚ) ≠ 0 := by norm_num
  have hsplit : ((t : Int) - (k : Int)) = (t : Int) + (-(k : Int)) := by ring
  rw [hsplit, zpow_add₀ h10, ← h]
  push_cast
  rw [zpow_natCast]
  ring

theorem signVal_mul_pow (sgn : Bool) (x : Nat) (m : Nat) :
    signVal sgn x * (10 : Int) ^ m = signVal sgn (x * 10 ^ m) := by
  cases sgn <;> simp [signVal] <;> push_cast <;> ring

theorem newFromString_fracAux (sgn : Bool) (a k : Nat)
    (hkb : (k : Int) ≤ 2 ^ 31)
    (ip fp : List Char) (hipne : ip ≠ [])
    (hipd : ∀ c ∈ ip, isDigitChar c = true) (hfpd : ∀ c ∈ fp, isDigitChar c = true)
    (hfplen : fp.length = k)
    (hval : valBE (ip.map charVal) * 10 ^ k + valBE (fp.map charVal) = a) :
    ∃ d2 : Dec,
      newFromString ⟨(if sgn then ['-'] else []) ++
        (ip ++ (if (trimRightZeros fp).isEmpty then [] else '.' :: trimRightZeros fp))⟩ =
        .ok d2 ∧
      d2.toRat = Dec.toRat ⟨signVal sgn a, -(k : Int)⟩ := by
  obtain ⟨t, htrim⟩ := trimRightZeros_spec fp
  have hlensplit : fp.length = (trimRightZeros fp).length + t := by
    conv_lhs => rw [htrim]
    simp
  have hfp2d : ∀ c ∈ trimRightZeros fp, isDigitChar c = true := by
    intro c hc
    apply hfpd
    rw [htrim]
    exact List.mem_append_left _ hc
  have hvfp : valBE (fp.map charVal) = valBE ((trimRightZeros fp).map charVal) * 10 ^ t := by
    conv_lhs => rw [htrim]
    rw [List.map_append, valBE_append, valBE_map_replicate_zero, List.length_map,
      List.length_replicate]
    ring
  by_cases hfp2e : (trimRightZeros fp).isEmpty
  · -- all fractional digits were zeros: no decimal point is printed
    have hfp2nil : trimRightZeros fp = [] := by
      cases h : trimRightZeros fp with
      | nil => rfl
      | cons x xs => rw [h] at hfp2e; simp at hfp2e
    have hva : valBE (ip.map charVal) * 10 ^ k = a := by
      rw [hvfp, hfp2nil] at hval
      simpa [valBE] using hval
    refine ⟨⟨signVal sgn (valBE (ip.map charVal)), 0⟩, ?_, ?_⟩
    · rw [if_pos hfp2e, List.append_nil]
      exact newFromString_plainB sgn hipne hipd
    · have hshift := dec_toRat_shift (signVal sgn a) (signVal sgn (valBE (ip.map charVal))) k k
        (by rw [signVal_mul_pow, hva])
      have hzero : ((k : Int) - (k : Int)) = 0 := by ring
      rw [hzero] at hshift
      exact hshift
  · -- a genuine fractional part remains
    have hfp2ne : trimRightZeros fp ≠ [] := by
      intro h
      rw [h] at hfp2e
      exact hfp2e rfl
    have hlenb : -(2 ^ 31 : Int) ≤ -(((trimRightZeros fp).length : Nat) : Int) := by
      have : (trimRightZeros fp).length ≤ k := by omega
      omega
    refine ⟨⟨signVal sgn (valBE ((ip ++ trimRightZeros fp).map charVal)),
      -(((trimRightZeros fp).length : Nat) : Int)⟩, ?_, ?_⟩
    · rw [if_neg hfp2e]
      exact newFromString_dottedB sgn hipne hipd hfp2ne hfp2d hlenb
    · have hk2 : k = (trimRightZeros fp).length + t := by omega
      have hnat : valBE ((ip ++ trimRightZeros fp).map charVal) * 10 ^ t = a := by
        rw [List.map_append, valBE_append, List.length_map]
        calc (valBE (ip.map charVal) * 10 ^ (trimRightZeros fp).length +
              valBE ((trimRightZeros fp).map charVal)) * 10 ^ t
            = valBE (ip.map charVal) * 10 ^ ((trimRightZeros fp).length + t) +
              valBE ((trimRightZeros fp).map charVal) * 10 ^ t := by ring
          _ = valBE (ip.map charVal) * 10 ^ k + valBE (fp.map charVal) := by
              rw [← hk2, ← hvfp]
          _ = a := hval
      have hshift := dec_toRat_shift (signVal sgn a)
        (signVal sgn (valBE ((ip ++ trimRightZeros fp).map charVal))) t k
        (by rw [signVal_mul_pow, hnat])
      have hexp2 : -(((trimRightZeros fp).length : Nat) : Int) = (t : Int) - (k : Int) := by
        omega
      rw [hexp2]
      exact hshift

theorem newFromString_decString (d : Dec) (hlo : -(2 ^ 31 : Int) ≤ d.exp)
    (hhi : d.exp ≤ (2 ^ 31 : Int) - 1) :
    ∃ d2 : Dec, newFromString (decString d) = .ok d2 ∧ d2.toRat = d.toRat := by
  obtain ⟨v, e⟩ := d
  dsimp only at hlo hhi ⊢
  by_cases hexp : 0 ≤ e
  · -- non-negative exponent: the plain integer rendering round-trips at exponent 0
    have hchars : decString ⟨v, e⟩ = ⟨intChars (v * (10 : Int) ^ e.toNat)⟩ := by
      unfold decString decToChars
      simp [hexp]
    set z := v * (10 : Int) ^ e.toNat with hz
    have hdig : ∀ c ∈ natChars z.natAbs, isDigitChar c = true :=
      fun c hc => List.all_eq_true.mp (natChars_all_digit z.natAbs) c hc
    have hne := natChars_ne_nil z.natAbs
    refine ⟨⟨z, 0⟩, ?_, ?_⟩
    · rw [hchars]
      unfold intChars
      by_cases hv : z < 0
      · rw [if_pos hv]
        have hp := newFromString_plainB true hne hdig
        rw [valBE_charVal_natChars] at hp
        have hval : signVal true z.natAbs = z := by
          unfold signVal
          rw [if_pos rfl]
          omega
        rw [hval] at hp
        exact hp
      · rw [if_neg hv]
        have hp := newFromString_plainB false hne hdig
        rw [valBE_charVal_natChars] at hp
        have hval : signVal false z.natAbs = z := by
          unfold signVal
          rw [if_neg (by decide)]
          omega
        rw [hval] at hp
        exact hp
    · unfold Dec.toRat
      dsimp only
      rw [zpow_zero, mul_one]
      have hee : e = ((e.toNat : Nat) : Int) := (Int.toNat_of_nonneg hexp).symm
      rw [hee, zpow_natCast, hz]
      push_cast
      ring
  · -- negative exponent: integer and fractional digit parts
    have he : e < 0 := not_le.mp hexp
    have hkb : (((-e).toNat : Nat) : Int) ≤ 2 ^ 31 := by
      have hpow : ((2 : Int) ^ 31) = 2147483648 := by norm_num
      omega
    have hke : e = -((((-e).toNat : Nat)) : Int) := by omega
    have hsd : ∀ c ∈ natChars v.natAbs, isDigitChar c = true :=
      fun c hc => List.all_eq_true.mp (natChars_all_digit v.natAbs) c hc
    by_cases hcase : (-e).toNat < (natChars v.natAbs).length
    · -- more digits than fractional places: split the digit string
      set s := natChars v.natAbs with hs
      set ip := s.take (s.length - (-e).toNat) with hip
      set fp := s.drop (s.length - (-e).toNat) with hfp
      have hsfp : ip ++ fp = s := List.take_append_drop _ s
      have hfplen : fp.length = (-e).toNat := by
        rw [hfp, List.length_drop]
        omega
      have hipne : ip ≠ [] := by
        have : ip.length = s.length - (-e).toNat := by
          rw [hip, List.length_take]
          omega
        intro hnil
        rw [hnil] at this
        simp at this
        omega
      have hipd : ∀ c ∈ ip, isDigitChar c = true := by
        intro c hc
        exact hsd c ((List.take_sublist _ _).mem hc)
      have hfpd : ∀ c ∈ fp, isDigitChar c = true := by
        intro c hc
        exact hsd c ((List.drop_sublist _ _).mem hc)
      have hval : valBE (ip.map charVal) * 10 ^ (-e).toNat + valBE (fp.map charVal)
          = v.natAbs := by
        calc valBE (ip.map charVal) * 10 ^ (-e).toNat + valBE (fp.map charVal)
            = valBE ((ip ++ fp).map charVal) := by
              rw [List.map_append, valBE_append, List.length_map, hfplen]
          _ = v.natAbs := by rw [hsfp, hs, valBE_charVal_natChars]
      have hchars : decToChars ⟨v, e⟩ = (if v < 0 then ['-'] else []) ++
          (ip ++ (if (trimRightZeros fp).isEmpty then [] else '.' :: trimRightZeros fp)) := by
        unfold decToChars
        rw [if_neg hexp]
        simp only [if_pos hcase, ← hs, ← hip, ← hfp]
        by_cases hv : v < 0
        · rw [if_pos hv, if_pos hv]
          rfl
        · rw [if_neg hv, if_neg hv]
          rfl
      by_cases hv : v < 0
      · obtain ⟨d2, hparse, hrat⟩ := newFromString_fracAux true v.natAbs (-e).toNat hkb
          ip fp hipne hipd hfpd hfplen hval
        refine ⟨d2, ?_, ?_⟩
        · rw [show decString ⟨v, e⟩ = ⟨decToChars ⟨v, e⟩⟩ from rfl, hchars, if_pos hv]
          exact hparse
        · rw [hrat]
          have hsv : signVal true v.natAbs = v := by
            unfold signVal
            rw [if_pos rfl]
            omega
          rw [hsv, ← hke]
      · obtain ⟨d2, hparse, hrat⟩ := newFromString_fracAux false v.natAbs (-e).toNat hkb
          ip fp hipne hipd hfpd hfplen hval
        refine ⟨d2, ?_, ?_⟩
        · rw [show decString ⟨v, e⟩ = ⟨decToChars ⟨v, e⟩⟩ from rfl, hchars, if_neg hv]
          exact hparse
        · rw [hrat]
          have hsv : signVal false v.natAbs = v := by
            unfold signVal
            rw [if_neg (by decide)]
            omega
          rw [hsv, ← hke]
    · -- at most as many digits as fractional places: pad with zeros
      set s := natChars v.natAbs with hs
      set ip : List Char := ['0'] with hip
      set fp := List.replicate ((-e).toNat - s.length) '0' ++ s with hfp
      have hfplen : fp.length = (-e).toNat := by
        rw [hfp, List.length_append, List.length_replicate]
        omega
      have hipne : ip ≠ [] := by simp [hip]
      have hipd : ∀ c ∈ ip, isDigitChar c = true := by
        intro c hc
        rw [hip] at hc
        simp only [List.mem_singleton] at hc
        rw [hc]
        decide
      have hfpd : ∀ c ∈ fp, isDigitChar c = true := by
        intro c hc
        rw [hfp] at hc
        rcases List.mem_append.mp hc with h | h
        · rw [List.eq_of_mem_replicate h]
          decide
        · exact hsd c h
      have hval : valBE (ip.map charVal) * 10 ^ (-e).toNat + valBE (fp.map charVal)
          = v.natAbs := by
        have hipz : valBE (ip.map charVal) = 0 := by
          rw [hip]
          decide
        have hfpv : valBE (fp.map charVal) = v.natAbs := by
          rw [hfp, List.map_append, valBE_append, valBE_map_replicate_zero, hs,
            valBE_charVal_natChars]
          ring
        rw [hipz, hfpv]
        ring
      have hchars : decToChars ⟨v, e⟩ = (if v < 0 then ['-'] else []) ++
          (ip ++ (if (trimRightZeros fp).isEmpty then [] else '.' :: trimRightZeros fp)) := by
        unfold decToChars
        rw [if_neg hexp]
        simp only [if_neg hcase, ← hs, ← hip, ← hfp]
        by_cases hv : v < 0
        · rw [if_pos hv, if_pos hv]
          rfl
        · rw [if_neg hv, if_neg hv]
          rfl
      by_cases hv : v < 0
      · obtain ⟨d2, hparse, hrat⟩ := newFromString_fracAux true v.natAbs (-e).toNat hkb
          ip fp hipne hipd hfpd hfplen hval
        refine ⟨d2, ?_, ?_⟩
        · rw [show decString ⟨v, e⟩ = ⟨decToChars ⟨v, e⟩⟩ from rfl, hchars, if_pos hv]
          exact hparse
        · rw [hrat]
          have hsv : signVal true v.natAbs = v := by
            unfold signVal
            rw [if_pos rfl]
            omega
          rw [hsv, ← hke]
      · obtain ⟨d2, hparse, hrat⟩ := newFromString_fracAux false v.natAbs (-e).toNat hkb
          ip fp hipne hipd hfpd hfplen hval
        refine ⟨d2, ?_, ?_⟩
        · rw [show decString ⟨v, e⟩ = ⟨decToChars ⟨v, e⟩⟩ from rfl, hchars, if_neg hv]
          exact hparse
        · rw [hrat]
          have hsv : signVal false v.natAbs = v := by
            unfold signVal
            rw [if_neg (by decide)]
            omega
          rw [hsv, ← hke]

deriving instance DecidableEq for Except

/-! ## The Rego value algebra (`ast.Value`)

Numbers carry their exact decimal text (`json.Number`), as the engine
stores them.  Objects are ordered key-value lists with unique keys in any
value produced by the engine; `Insert` deduplication is not modelled, so
objects built here keep the construction order.
-/

inductive RegoValue where
  | null
  | bool (b : Bool)
  | str (s : String)
  | num (s : String)
  | arr (xs : List RegoValue)
  | obj (kvs : List (RegoValue × RegoValue))
  | set (xs : List RegoValue)
  deriving Repr

/-- Structural term equality, used for object key lookup (`ast.Object.Get`).
For the string keys the library uses this coincides with the engine's
term equality; composite keys (never used as keys by this library)
compare structurally here. -/
def rvBeq : RegoValue → RegoValue → Bool
  | .null, .null => true
  | .bool a, .bool b => a == b
  | .str a, .str b => a == b
  | .num a, .num b => a == b
  | .arr xs, .arr ys =>
      xs.length == ys.length &&
        ((xs.zip ys).attach.all fun p => rvBeq p.1.1 p.1.2)
  | .obj xs, .obj ys =>
      xs.length == ys.length &&
        ((xs.zip ys).attach.all fun p =>
          rvBeq p.1.1.1 p.1.2.1 && rvBeq p.1.1.2 p.1.2.2)
  | .set xs, .set ys =>
      xs.length == ys.length &&
        ((xs.zip ys).attach.all fun p => rvBeq p.1.1 p.1.2)
  | _, _ => false
  termination_by x _ => sizeOf x
  decreasing_by
  all_goals
    first
    | (have h1 := List.sizeOf_lt_of_mem (List.of_mem_zip p.2).1
       rcases p with ⟨⟨pa, pb⟩, hp⟩
       simp at h1 ⊢
       omega)
    | (have h1 := List.sizeOf_lt_of_mem (List.of_mem_zip p.2).1
       rcases p with ⟨⟨⟨pa1, pa2⟩, pb⟩, hp⟩
       simp at h1 ⊢
       omega)

/-- `ast.Object.Get`: the value stored under a key, if any. -/
def objGet (kvs : List (RegoValue × RegoValue)) (k : RegoValue) : Option RegoValue :=
  (kvs.find? (fun kv => rvBeq kv.1 k)).map (fun kv => kv.2)

/-- The Go dynamic type of an `ast.Value`, for `%T`-style error texts. -/
def rvTypeName : RegoValue → String
  | .null => "ast.Null"
  | .bool _ => "ast.Boolean"
  | .str _ => "ast.String"
  | .num _ => "ast.Number"
  | .arr _ => "*ast.Array"
  | .obj _ => "ast.Object"
  | .set _ => "ast.Set"

/-! ## The host (Go) side: static types and runtime values -/

/-- Signed integer widths (`reflect.Int` through `reflect.Int64`).
`reflect.Int` is 64 bits wide on the supported platforms. -/
inductive IntW where
  | i | i8 | i16 | i32 | i64
  deriving Repr, DecidableEq

/-- Unsigned integer widths (`reflect.Uint` through `reflect.Uint64`). -/
inductive UintW where
  | u | u8 | u16 | u32 | u64
  deriving Repr, DecidableEq

/-- Floating point widths. -/
inductive FloatW where
  | f32 | f64
  deriving Repr, DecidableEq

/-- A Go static type as the reflection layer sees it.  A struct field is
`(name, json tag, exported, type)`; an absent json tag is the empty
string, as `StructTag.Get` reports it.  `decimalT`, `nullDecimalT` and
`timeT` are the registered special types (their reflect kind is
`Struct`); `funcT`/`chanT` stand for function and channel types. -/
inductive GoType where
  | bool
  | string
  | int (w : IntW)
  | uint (w : UintW)
  | float (w : FloatW)
  | ptr (t : GoType)
  | slice (t : GoType)
  | array (n : Nat) (t : GoType)
  | mapT (k : GoType) (v : GoType)
  | structT (fields : List (String × String × Bool × GoType))
  | iface
  | decimalT
  | nullDecimalT
  | timeT
  | funcT
  | chanT
  deriving Repr

/-- Field name of a struct-field descriptor. -/
def fName (f : String × String × Bool × GoType) : String := f.1

/-- Raw json tag of a struct-field descriptor (empty when absent). -/
def fTag (f : String × String × Bool × GoType) : String := f.2.1

/-- Exportedness of a struct-field descriptor. -/
def fExported (f : String × String × Bool × GoType) : Bool := f.2.2.1

/-- Static type of a struct-field descriptor. -/
def fTy (f : String × String × Bool × GoType) : GoType := f.2.2.2

mutual

/-- A size measure on types, used to justify termination of the
type-directed decoder. -/
def tySize : GoType → Nat
  | .ptr t => tySize t + 1
  | .slice t => tySize t + 1
  | .array _ t => tySize t + 1
  | .mapT k v => tySize k + tySize v + 1
  | .structT fs => fieldsSize fs + 1
  | _ => 1

/-- Combined size of a field list. -/
def fieldsSize : List (String × String × Bool × GoType) → Nat
  | [] => 0
  | f :: fs => (tySize f.2.2.2 + 1) + fieldsSize fs

end

theorem fieldsSize_mem_le {f : String × String × Bool × GoType}
    {fs : List (String × String × Bool × GoType)} (h : f ∈ fs) :
    tySize (fTy f) + 1 ≤ fieldsSize fs := by
  induction fs with
  | nil => cases h
  | cons g gs ih =>
    rcases List.mem_cons.mp h with rfl | h2
    · unfold fieldsSize fTy
      omega
    · have := ih h2
      unfold fieldsSize
      omega

/-- A Go runtime value, as `reflect.Value` presents it.  `Option` payloads
of pointers, slices, maps and interfaces model nil-ness (`none` is nil).
Floating point values carry their decimal text; binary float semantics
is not modelled (no verified claim exercises the float paths).
`vtime` carries the instant as its `time.RFC3339Nano` rendering. -/
inductive GoValue where
  | vbool (b : Bool)
  | vstr (s : String)
  | vint (w : IntW) (n : Int)
  | vuint (w : UintW) (n : Nat)
  | vfloat (w : FloatW) (text : String)
  | vptr (p : Option GoValue)
  | vslice (xs : Option (List GoValue))
  | varray (xs : List GoValue)
  | vmap (entries : Option (List (GoValue × GoValue)))
  | viface (v : Option GoValue)
  | vstruct (fields : List ((String × String × Bool) × GoValue))
  | vdecimal (d : Dec)
  | vnullDecimal (valid : Bool) (d : Dec)
  | vtime (s : String)
  | vfunc (isNil : Bool)
  | vchan (isNil : Bool)
  deriving Repr

/-- The zero value of a Go type (`reflect.New(t).Elem()`). -/
def zeroValue : GoType → GoValue
  | .bool => .vbool false
  | .string => .vstr ""
  | .int w => .vint w 0
  | .uint w => .vuint w 0
  | .float w => .vfloat w "0"
  | .ptr _ => .vptr none
  | .slice _ => .vslice none
  | .array n t => .varray (List.replicate n (zeroValue t))
  | .mapT _ _ => .vmap none
  | .structT fs => .vstruct (fs.attach.map fun f =>
      ((fName f.1, fTag f.1, fExported f.1), zeroValue (fTy f.1)))
  | .iface => .viface none
  | .decimalT => .vdecimal ⟨0, 0⟩
  | .nullDecimalT => .vnullDecimal false ⟨0, 0⟩
  | .timeT => .vtime "0001-01-01T00:00:00Z"
  | .funcT => .vfunc true
  | .chanT => .vchan true
  termination_by t => tySize t
  decreasing_by
  · simp only [tySize]
    omega
  · have := fieldsSize_mem_le f.2
    simp only [tySize]
    omega

/-! ## The decoder (`convert/rego2go.go`) -/

/-- Rendering of a Go type for `%v`-style error texts. -/
def tyName : GoType → String
  | .bool => "bool"
  | .string => "string"
  | .int .i => "int"
  | .int .i8 => "int8"
  | .int .i16 => "int16"
  | .int .i32 => "int32"
  | .int .i64 => "int64"
  | .uint .u => "uint"
  | .uint .u8 => "uint8"
  | .uint .u16 => "uint16"
  | .uint .u32 => "uint32"
  | .uint .u64 => "uint64"
  | .float .f32 => "float32"
  | .float .f64 => "float64"
  | .ptr t => "*" ++ tyName t
  | .slice t => "[]" ++ tyName t
  | .array n t => "[" ++ ⟨natChars n⟩ ++ "]" ++ tyName t
  | .mapT k v => "map[" ++ tyName k ++ "]" ++ tyName v
  | .structT _ => "struct"
  | .iface => "interface"
  | .decimalT => "decimal.Decimal"
  | .nullDecimalT => "decimal.NullDecimal"
  | .timeT => "time.Time"
  | .funcT => "func"
  | .chanT => "chan"
  termination_by t => tySize t
  decreasing_by all_goals (simp only [tySize]; omega)

/-- `getStructFieldKey`: the external key of a struct field, derived from
its json tag; the field name when no tag is present; empty (meaning
skip on the encoder side) when the first comma-separated tag entry is
`-`. -/
def getStructFieldKey (name tag : String) : String :=
  if tag = "" then name
  else
    let key := String.mk (tag.data.takeWhile (fun c => c != ','))
    if key = "-" then "" else key

/-- `parseRegoNumberInto`: parse exact number text into a specific
numeric width, with the explicit per-width range checks of the code.
`reflect.Int`/`reflect.Uint` take the full 64-bit range (no extra
check).  The float branch delegates to `strconv.ParseFloat`, whose
binary-float semantics is not modelled: the value keeps its text. -/
def parseRegoNumberInto (t : GoType) (s : String) : Except String GoValue :=
  match t with
  | .int w =>
      match goParseInt64 s with
      | .error e => .error ("error parsing integer: " ++ e)
      | .ok i64 =>
          match w with
          | .i => .ok (.vint .i i64)
          | .i8 =>
              if i64 < -128 ∨ 127 < i64 then
                .error ("int8 out of range " ++ ⟨intChars i64⟩)
              else .ok (.vint .i8 i64)
          | .i16 =>
              if i64 < -32768 ∨ 32767 < i64 then
                .error ("int16 out of range " ++ ⟨intChars i64⟩)
              else .ok (.vint .i16 i64)
          | .i32 =>
              if i64 < -2147483648 ∨ 2147483647 < i64 then
                .error ("int32 out of range " ++ ⟨intChars i64⟩)
              else .ok (.vint .i32 i64)
          | .i64 => .ok (.vint .i64 i64)
  | .uint w =>
      match goParseUint64 s with
      | .error e => .error ("error parsing unsigned integer: " ++ e)
      | .ok u64 =>
          match w with
          | .u => .ok (.vuint .u u64)
          | .u8 =>
              if 255 < u64 then .error ("uint8 out of range " ++ ⟨natChars u64⟩)
              else .ok (.vuint .u8 u64)
          | .u16 =>
              if 65535 < u64 then .error ("uint16 out of range " ++ ⟨natChars u64⟩)
              else .ok (.vuint .u16 u64)
          | .u32 =>
              if 4294967295 < u64 then .error ("uint32 out of range " ++ ⟨natChars u64⟩)
              else .ok (.vuint .u32 u64)
          | .u64 => .ok (.vuint .u64 u64)
  | .float w => .ok (.vfloat w s)
  | t => .error ("unsupported numeric type " ++ tyName t)

/-- `convertRegoToNullDecimal`: Null becomes the invalid `NullDecimal`;
a Number is parsed; anything else is a type mismatch. -/
def convertRegoToNullDecimal (aVal : RegoValue) : Except String GoValue :=
  match aVal with
  | .null => .ok (.vnullDecimal false ⟨0, 0⟩)
  | .num s =>
      match newFromString s with
      | .error e => .error ("decimal.NullDecimal parse error: " ++ e)
      | .ok d => .ok (.vnullDecimal true d)
  | v => .error ("decimal.NullDecimal conversion error: expected ast.Number (got " ++
      rvTypeName v ++ ")")

/-- `convertRegoNumberToDecimal`: a Number is parsed with
`decimal.NewFromString`; anything else is a type mismatch. -/
def convertRegoNumberToDecimal (aVal : RegoValue) : Except String GoValue :=
  match aVal with
  | .num s =>
      match newFromString s with
      | .error e => .error ("decimal.Decimal parse error: " ++ e)
      | .ok d => .ok (.vdecimal d)
  | v => .error ("decimal.Decimal conversion error: expected ast.Number (got " ++
      rvTypeName v ++ ")")

/-- `time.Parse(DefaultTimeFormat, s)`, modelled permissively: every text
is accepted and kept verbatim.  No verified claim exercises timestamp
parsing; this placeholder only keeps the surrounding control flow
faithful. -/
def goTimeParse (s : String) : Except String String := .ok s

/-- `convertRegoValueToInterface`: structural conversion into `any`.
`none` is the Go `nil`; a Number goes through the lossy `Float64` path
(kept as text here, see `GoValue.vfloat`); a Set has no conversion. -/
def convertRegoValueToInterface : RegoValue → Except String (Option GoValue)
  | .null => .ok none
  | .bool b => .ok (some (.vbool b))
  | .str s => .ok (some (.vstr s))
  | .num s => .ok (some (.vfloat .f64 s))
  | .arr xs => do
      let elems ← xs.attach.mapM (fun x => do
        let v ← convertRegoValueToInterface x.1
        pure (GoValue.viface v))
      .ok (some (.vslice (some elems)))
  | .obj kvs => do
      let entries ← kvs.attach.mapM (fun kv => do
        match kv.1.1 with
        | .str k => do
            let v ← convertRegoValueToInterface kv.1.2
            pure ((GoValue.vstr k, GoValue.viface v))
        | other => Except.error ("object key is not ast.String (got " ++
            rvTypeName other ++ ")"))
      .ok (some (.vmap (some entries)))
  | v => .error ("unsupported ast.Value type " ++ rvTypeName v)
  decreasing_by
  · have h1 := List.sizeOf_lt_of_mem x.2
    rcases x with ⟨x, hx⟩
    simp at h1 ⊢
    omega
  · have h1 := List.sizeOf_lt_of_mem kv.2
    rcases kv with ⟨⟨ka, kb⟩, hkv⟩
    simp at h1 ⊢
    omega

mutual

/-- `assignRegoValueToGo`: the general assignment of a Rego value into
a Go storage location of static type `t`.  The branch order follows the
code: `decimal.NullDecimal` (and its pointer) first, then the Null
mapping (zero value for pointer, slice, map and interface kinds; an
error for everything else), then `decimal.Decimal`, `time.Time` and
their pointers, then the scalar kinds, structs and interfaces.  The Go
switch has no cases for non-null values into generic pointer, slice,
map, array, function or channel kinds: those fall through to the
unsupported-type error. -/
def assignRegoValueToGo (t : GoType) (aVal : RegoValue) : Except String GoValue :=
  match t, aVal with
  | .nullDecimalT, v => convertRegoToNullDecimal v
  | .ptr .nullDecimalT, v =>
      match convertRegoToNullDecimal v with
      | .error e => .error e
      | .ok nd => .ok (.vptr (some nd))
  | .ptr _, .null => .ok (.vptr none)
  | .slice _, .null => .ok (.vslice none)
  | .mapT _ _, .null => .ok (.vmap none)
  | .iface, .null => .ok (.viface none)
  | t, .null => .error ("null is not allowed for type " ++ tyName t)
  | .decimalT, v => convertRegoNumberToDecimal v
  | .ptr .decimalT, v =>
      match convertRegoNumberToDecimal v with
      | .error e => .error e
      | .ok d => .ok (.vptr (some d))
  | .timeT, .str s =>
      match goTimeParse s with
      | .error e => .error ("time.Time parsing error: " ++ e)
      | .ok parsed => .ok (.vtime parsed)
  | .timeT, v => .error ("time.Time conversion error: expected ast.String (got " ++
      rvTypeName v ++ ")")
  | .ptr .timeT, .str s =>
      match goTimeParse s with
      | .error e => .error ("*time.Time parsing error: " ++ e)
      | .ok parsed => .ok (.vptr (some (.vtime parsed)))
  | .ptr .timeT, v => .error ("*time.Time conversion error: expected ast.String (got " ++
      rvTypeName v ++ ")")
  | .string, .str s => .ok (.vstr s)
  | .string, v => .error ("string conversion error: expected ast.String (got " ++
      rvTypeName v ++ ")")
  | .bool, .bool b => .ok (.vbool b)
  | .bool, v => .error ("bool conversion error: expected ast.Boolean (got " ++
      rvTypeName v ++ ")")
  | .int w, .num s => parseRegoNumberInto (.int w) s
  | .int _, v => .error ("number conversion error: expected ast.Number (got " ++
      rvTypeName v ++ ")")
  | .uint w, .num s => parseRegoNumberInto (.uint w) s
  | .uint _, v => .error ("number conversion error: expected ast.Number (got " ++
      rvTypeName v ++ ")")
  | .float w, .num s => parseRegoNumberInto (.float w) s
  | .float _, v => .error ("number conversion error: expected ast.Number (got " ++
      rvTypeName v ++ ")")
  | .structT fs, v => convertRegoObjectToStruct fs v
  | .iface, v =>
      match convertRegoValueToInterface v with
      | .error e => .error e
      | .ok o => .ok (.viface o)
  | t, _ => .error ("assignRegoValueToGo: unsupported type " ++ tyName t)
  termination_by 2 * tySize t + 1
  decreasing_by
  · simp only [tySize]
    omega

/-- `convertRegoObjectToStruct`: decode an Object into a struct with the
given visible field layout.  Unexported fields are skipped (left at
their zero value); a missing key leaves the field at its zero value; a
failing field value wraps the error with the field name. -/
def convertRegoObjectToStruct (fields : List (String × String × Bool × GoType))
    (aVal : RegoValue) : Except String GoValue :=
  match aVal with
  | .obj kvs => do
      let fs ← fields.attach.mapM (fun f =>
        if fExported f.1 then
          match objGet kvs (.str (getStructFieldKey (fName f.1) (fTag f.1))) with
          | none => Except.ok ((fName f.1, fTag f.1, fExported f.1), zeroValue (fTy f.1))
          | some tv =>
              match assignRegoValueToGo (fTy f.1) tv with
              | .error e => Except.error ("error converting field " ++ fName f.1 ++ ": " ++ e)
              | .ok gv => Except.ok ((fName f.1, fTag f.1, fExported f.1), gv)
        else Except.ok ((fName f.1, fTag f.1, fExported f.1), zeroValue (fTy f.1)))
      .ok (.vstruct fs)
  | v => .error ("struct conversion error: expected ast.Object (got " ++ rvTypeName v ++ ")")
  termination_by 2 * fieldsSize fields + 2
  decreasing_by
  · have := fieldsSize_mem_le f.2
    omega

end

/-- `convertRegoArrayToSlice`: an Array decodes into a slice (fresh, of
the same length) or a fixed-size array (length-checked; remaining slots
keep their zero value), elements decoded positionally and fail-fast. -/
def convertRegoArrayToSlice (target : GoType) (aVal : RegoValue) : Except String GoValue :=
  match aVal with
  | .arr xs =>
      match target with
      | .array n elemTy =>
          if n < xs.length then
            .error ("Rego array length " ++ String.mk (natChars xs.length) ++
              " exceeds Go array length " ++ String.mk (natChars n))
          else
            match xs.enum.mapM (fun p =>
              match assignRegoValueToGo elemTy p.2 with
              | .error e => Except.error ("error converting array element " ++
                  String.mk (natChars p.1) ++ ": " ++ e)
              | .ok y => Except.ok y) with
            | .error e => .error e
            | .ok ys => .ok (.varray (ys ++ List.replicate (n - xs.length) (zeroValue elemTy)))
      | .slice elemTy =>
          match xs.enum.mapM (fun p =>
            match assignRegoValueToGo elemTy p.2 with
            | .error e => Except.error ("error converting array element " ++
                String.mk (natChars p.1) ++ ": " ++ e)
            | .ok y => Except.ok y) with
          | .error e => .error e
          | .ok ys => .ok (.vslice (some ys))
      | _ => .error "target is not a slice or array"
  | v => .error ("slice/array conversion error: expected ast.Array (got " ++ rvTypeName v ++ ")")

/-- `convertRegoObjectOrSetToMap`: a Set decodes only into
`map[string]struct marker` (presence-only entries from its string
members); otherwise an Object is required, with string keys, each key
and value decoded through the general assignment. -/
def convertRegoObjectOrSetToMap (keyTy elemTy : GoType) (aVal : RegoValue) :
    Except String GoValue :=
  match aVal with
  | .set elems =>
      match keyTy, elemTy with
      | .string, .structT [] =>
          match elems.mapM (fun e =>
            match e with
            | .str s => Except.ok ((GoValue.vstr s, GoValue.vstruct []))
            | other => Except.error ("ast.Set element is not ast.String (got " ++
                rvTypeName other ++ ")")) with
          | .error e => .error e
          | .ok entries => .ok (.vmap (some entries))
      | _, _ => .error ("ast.Set can only convert to map[string]struct, got map[" ++
          tyName keyTy ++ "]" ++ tyName elemTy)
  | .obj kvs =>
      match kvs.mapM (fun kv =>
        match kv.1 with
        | .str _ =>
            (match assignRegoValueToGo keyTy kv.1 with
            | .error e => Except.error ("error converting map key: " ++ e)
            | .ok nk =>
                match assignRegoValueToGo elemTy kv.2 with
                | .error e => Except.error ("error converting map value: " ++ e)
                | .ok nv => Except.ok ((nk, nv)))
        | other => Except.error ("map key is not ast.String (got " ++
            rvTypeName other ++ ")")) with
      | .error e => .error e
      | .ok entries => .ok (.vmap (some entries))
  | v => .error ("map conversion error: expected ast.Object (got " ++ rvTypeName v ++ ")")

/-- The visible field layout of `decimal.NullDecimal`: an exported
`Decimal` field and an exported `Valid` flag (no json tags). -/
def nullDecimalFields : List (String × String × Bool × GoType) :=
  [("Decimal", "", true, .decimalT), ("Valid", "", true, .bool)]

/-- `RegoToGo`: the top-level decode dispatch.  An interface target has
no reflect type information (`reflect.TypeOf` of a nil interface is
nil), `time.Time` and `decimal.Decimal` go straight to the single-value
assignment, struct kinds (including `decimal.NullDecimal`, whose
reflect kind is `Struct`) to the struct converter, slices, arrays and
maps to their converters, a pointer maps Null to nil and otherwise
decodes into fresh storage, and everything else takes the general
assignment. -/
def RegoToGo (t : GoType) (aVal : RegoValue) : Except String GoValue :=
  match t with
  | .iface => .error "no type information available"
  | .timeT => assignRegoValueToGo .timeT aVal
  | .decimalT => assignRegoValueToGo .decimalT aVal
  | .structT fs => convertRegoObjectToStruct fs aVal
  | .nullDecimalT => convertRegoObjectToStruct nullDecimalFields aVal
  | .slice e => convertRegoArrayToSlice (.slice e) aVal
  | .array n e => convertRegoArrayToSlice (.array n e) aVal
  | .mapT k e => convertRegoObjectOrSetToMap k e aVal
  | .ptr e =>
      match aVal with
      | .null => .ok (.vptr none)
      | v =>
          match assignRegoValueToGo e v with
          | .error e => .error e
          | .ok inner => .ok (.vptr (some inner))
  | t => assignRegoValueToGo t aVal

/-! ## The encoder (`go2rego`: `GoToRego` / `goValueToAst`)

The encoder dispatches on the runtime shape of the value.  Special types
first (`decimal.NullDecimal`, `decimal.Decimal`, `time.Time`), then the
scalar kinds including interface unwrapping, then pointers, slices and
arrays, maps (requiring string keys; note there is no special case for
a presence-only map here: every map becomes an Object), structs (in
declaration order, skipping unexported fields and fields whose computed
key is empty), and anything else is unsupported.  A nil slice has
length zero and so becomes the empty Array; a nil map iterates no
entries and becomes the empty Object.  `Insert` key deduplication is
not modelled (keys repeat only if struct tags collide). -/

/-- The Go runtime type of a value, for error texts. -/
def goTypeName : GoValue → String
  | .vbool _ => "bool"
  | .vstr _ => "string"
  | .vint w _ => tyName (.int w)
  | .vuint w _ => tyName (.uint w)
  | .vfloat w _ => tyName (.float w)
  | .vptr _ => "ptr"
  | .vslice _ => "slice"
  | .varray _ => "array"
  | .vmap _ => "map"
  | .viface _ => "interface"
  | .vstruct _ => "struct"
  | .vdecimal _ => "decimal.Decimal"
  | .vnullDecimal _ _ => "decimal.NullDecimal"
  | .vtime _ => "time.Time"
  | .vfunc _ => "func"
  | .vchan _ => "chan"

/-- `goValueToAst`: encode a reflect value as an `ast.Value`. -/
def goValueToAst (rv : GoValue) : Except String RegoValue :=
  match rv with
  | .vnullDecimal valid d => if valid then .ok (.num (decString d)) else .ok .null
  | .vdecimal d => .ok (.num (decString d))
  | .vtime s => .ok (.str s)
  | .vbool b => .ok (.bool b)
  | .vstr s => .ok (.str s)
  | .vint _ n => .ok (.num (String.mk (intChars n)))
  | .vuint _ n => .ok (.num (String.mk (natChars n)))
  | .vfloat _ text => .ok (.num text)
  | .viface none => .ok .null
  | .viface (some v) => goValueToAst v
  | .vptr none => .ok .null
  | .vptr (some v) => goValueToAst v
  | .vslice none => .ok (.arr [])
  | .vslice (some xs) =>
      match xs.attach.mapM (fun x =>
        match x with
        | ⟨xv, hx⟩ => goValueToAst xv) with
      | .error e => .error e
      | .ok elems => .ok (.arr elems)
  | .varray xs =>
      match xs.attach.mapM (fun x =>
        match x with
        | ⟨xv, hx⟩ => goValueToAst xv) with
      | .error e => .error e
      | .ok elems => .ok (.arr elems)
  | .vmap none => .ok (.obj [])
  | .vmap (some entries) =>
      match entries.attach.mapM (fun kv =>
        match kv with
        | ⟨(kVal, vVal), hkv⟩ =>
            match kVal with
            | .vstr ks =>
                (match goValueToAst vVal with
                | .error e => Except.error e
                | .ok cv => Except.ok ((RegoValue.str ks, cv)))
            | other => Except.error ("map key must be string type (got " ++
                goTypeName other ++ ")")) with
      | .error e => .error e
      | .ok kvs => .ok (.obj kvs)
  | .vstruct fields =>
      match fields.attach.foldlM (fun (acc : List (RegoValue × RegoValue)) f =>
        match f with
        | ⟨((name, tag, exported), fv), hf⟩ =>
            if exported then
              let key := getStructFieldKey name tag
              if key = "" then Except.ok acc
              else
                match goValueToAst fv with
                | .error e => Except.error ("error converting field " ++ name ++ ": " ++ e)
                | .ok valAst => Except.ok (acc ++ [(RegoValue.str key, valAst)])
            else Except.ok acc) [] with
      | .error e => .error e
      | .ok kvs => .ok (.obj kvs)
  | v => .error ("unsupported Go type " ++ goTypeName v)
  decreasing_by
  all_goals
    first
    | (simp
       omega)
    | (have h1 := List.sizeOf_lt_of_mem hx
       simp at h1 ⊢
       omega)
    | (have h1 := List.sizeOf_lt_of_mem hkv
       simp at h1 ⊢
       omega)
    | (have h1 := List.sizeOf_lt_of_mem hf
       simp at h1 ⊢
       omega)

/-- `GoToRego`: nil input is Null; otherwise the reflect value of the
input (which for a non-nil interface is its concrete value) is encoded.
The `rv.IsValid` guard of the code can only fail for a nil input, which
is already handled. -/
def GoToRego (x : Option GoValue) : Except String RegoValue :=
  match x with
  | none => .ok .null
  | some gv => goValueToAst gv

/-! ## Function adapters (`convert/fn_wrap.go`)

`fnWrapNConvert` validates that at least N terms arrived (`len(terms) <
N` is the only arity check) and decodes the first N positionally with
`RegoToGo`, fail-fast.  `FnWrapN` invokes the wrapped function on the
decoded arguments and encodes its result with `GoToRego`; `FnWrapN_` is
the effect-only form whose success value is the Null term.  The builtin
context and the decode options are not modelled (the options are not
used by any claim). -/

def fnWrap1Convert (t1 : GoType) (terms : List RegoValue) : Except String GoValue :=
  if terms.length < 1 then
    .error ("expected 1 argument, got " ++ String.mk (natChars terms.length))
  else RegoToGo t1 (terms.getD 0 .null)

def fnWrap2Convert (t1 t2 : GoType) (terms : List RegoValue) :
    Except String (GoValue × GoValue) :=
  if terms.length < 2 then
    .error ("expected 2 arguments, got " ++ String.mk (natChars terms.length))
  else
    match RegoToGo t1 (terms.getD 0 .null) with
    | .error e => .error e
    | .ok v0 =>
        match RegoToGo t2 (terms.getD 1 .null) with
        | .error e => .error e
        | .ok v1 => .ok (v0, v1)

def fnWrap3Convert (t1 t2 t3 : GoType) (terms : List RegoValue) :
    Except String (GoValue × GoValue × GoValue) :=
  if terms.length < 3 then
    .error ("expected 3 arguments, got " ++ String.mk (natChars terms.length))
  else
    match RegoToGo t1 (terms.getD 0 .null) with
    | .error e => .error e
    | .ok v0 =>
        match RegoToGo t2 (terms.getD 1 .null) with
        | .error e => .error e
        | .ok v1 =>
            match RegoToGo t3 (terms.getD 2 .null) with
            | .error e => .error e
            | .ok v2 => .ok (v0, v1, v2)

def fnWrap4Convert (t1 t2 t3 t4 : GoType) (terms : List RegoValue) :
    Except String (GoValue × GoValue × GoValue × GoValue) :=
  if terms.length < 4 then
    .error ("expected 4 arguments, got " ++ String.mk (natChars terms.length))
  else
    match RegoToGo t1 (terms.getD 0 .null) with
    | .error e => .error e
    | .ok v0 =>
        match RegoToGo t2 (terms.getD 1 .null) with
        | .error e => .error e
        | .ok v1 =>
            match RegoToGo t3 (terms.getD 2 .null) with
            | .error e => .error e
            | .ok v2 =>
                match RegoToGo t4 (terms.getD 3 .null) with
                | .error e => .error e
                | .ok v3 => .ok (v0, v1, v2, v3)

def fnWrap5Convert (t1 t2 t3 t4 t5 : GoType) (terms : List RegoValue) :
    Except String (GoValue × GoValue × GoValue × GoValue × GoValue) :=
  if terms.length < 5 then
    .error ("expected 5 arguments, got " ++ String.mk (natChars terms.length))
  else
    match RegoToGo t1 (terms.getD 0 .null) with
    | .error e => .error e
    | .ok v0 =>
        match RegoToGo t2 (terms.getD 1 .null) with
        | .error e => .error e
        | .ok v1 =>
            match RegoToGo t3 (terms.getD 2 .null) with
            | .error e => .error e
            | .ok v2 =>
                match RegoToGo t4 (terms.getD 3 .null) with
                | .error e => .error e
                | .ok v3 =>
                    match RegoToGo t5 (terms.getD 4 .null) with
                    | .error e => .error e
                    | .ok v4 => .ok (v0, v1, v2, v3, v4)

def FnWrap0 (fn : Unit → Except String GoValue) (_terms : List RegoValue) :
    Except String RegoValue :=
  match fn () with
  | .error e => .error e
  | .ok res =>
      match GoToRego (some res) with
      | .error e => .error e
      | .ok val => .ok val

def FnWrap1 (t1 : GoType) (fn : GoValue → Except String GoValue)
    (terms : List RegoValue) : Except String RegoValue :=
  match fnWrap1Convert t1 terms with
  | .error e => .error e
  | .ok v0 =>
      match fn v0 with
      | .error e => .error e
      | .ok res =>
          match GoToRego (some res) with
          | .error e => .error e
          | .ok val => .ok val

def FnWrap2 (t1 t2 : GoType) (fn : GoValue → GoValue → Except String GoValue)
    (terms : List RegoValue) : Except String RegoValue :=
  match fnWrap2Convert t1 t2 terms with
  | .error e => .error e
  | .ok (v0, v1) =>
      match fn v0 v1 with
      | .error e => .error e
      | .ok res =>
          match GoToRego (some res) with
          | .error e => .error e
          | .ok val => .ok val

def FnWrap2_ (t1 t2 : GoType) (fn : GoValue → GoValue → Except String Unit)
    (terms : List RegoValue) : Except String RegoValue :=
  match fnWrap2Convert t1 t2 terms with
  | .error e => .error e
  | .ok (v0, v1) =>
      match fn v0 v1 with
      | .error e => .error e
      | .ok _ => .ok .null

/-! ## Module transform (`addDefaultFalse`)

A rule head carries the fully-qualified reference text (`Head.Ref()
.String()`, `none` for a nil reference), the head key term if any, the
number of arguments, and the head value term.  `addDefaultFalse` first
collects the references of the existing default rules, then walks the
rules (of the module as it was at entry: Go `range` snapshots the
slice) appending one `default <ref> = false` rule per distinct
qualifying reference — a rule without arguments whose key is the string
`if` or that has no key at all — that lacks a default. -/

structure RuleHead where
  reference : Option String
  key : Option RegoValue
  args : Nat
  value : Option RegoValue
  deriving Repr

structure Rule where
  isDefault : Bool
  head : RuleHead
  deriving Repr

/-- The synthesized `default <ref> = false` rule. -/
def mkDefaultRule (refStr : String) : Rule :=
  ⟨true, ⟨some refStr, none, 0, some (.bool false)⟩⟩

/-- Is this rule treated as an if-rule by the transform. -/
def isIfRule (r : Rule) : Bool :=
  match r.head.key with
  | some (.str s) => s == "if"
  | some _ => false
  | none => true

/-- One step of the second pass: the accumulated state is the set of
references that already have (or just received) a default, and the list
of appended rules. -/
def addDefaultStep (st : List String × List Rule) (r : Rule) : List String × List Rule :=
  if 0 < r.head.args then st
  else if isIfRule r then
    match r.head.reference with
    | none => st
    | some refStr =>
        if refStr ∈ st.1 then st
        else (refStr :: st.1, st.2 ++ [mkDefaultRule refStr])
  else st

/-- References of the rules already marked default. -/
def existingDefaults (rules : List Rule) : List String :=
  (rules.filter (fun r => r.isDefault)).map (fun r => r.head.reference.getD "")

/-- `addDefaultFalse` on the rule list of a module. -/
def addDefaultFalse (rules : List Rule) : List Rule :=
  rules ++ (rules.foldl addDefaultStep (existingDefaults rules, [])).2

/-- `hasImportRegobrickFeature`: does the import list contain
`data.regobrick.<feature>`. -/
def hasImportRegobrickFeature (imports : List String) (feature : String) : Bool :=
  imports.any (fun p => p == "data.regobrick." ++ feature)

/-- The module-level transform applied by `ParseModule` after parsing:
the `default_false` rewrite runs only when the sentinel import is
present. -/
def parseModuleTransform (imports : List String) (rules : List Rule) : List Rule :=
  if hasImportRegobrickFeature imports "default_false" then addDefaultFalse rules
  else rules

/-! ## Claims -/

/-- Claim C1 (code evaluated at the failing inputs): the encoder maps a
nil pointer, a nil interface and a top-level nil input to Null, but a
typed nil slice becomes the empty Array (not Null), a nil map becomes
the empty Object, and nil function and channel values fail with an
unsupported-type error — contradicting the claim (and the nil-handling
tests of the repository) that every nil host reference encodes to
Null. -/
theorem claim_C1_nil_encoding :
    goValueToAst (.vslice none) = .ok (.arr [])
    ∧ goValueToAst (.vmap none) = .ok (.obj [])
    ∧ goValueToAst (.vchan true) = .error "unsupported Go type chan"
    ∧ goValueToAst (.vfunc true) = .error "unsupported Go type func"
    ∧ goValueToAst (.vptr none) = .ok .null
    ∧ goValueToAst (.viface none) = .ok .null
    ∧ GoToRego none = .ok .null
    ∧ RegoValue.arr [] ≠ RegoValue.null := by
  refine ⟨?_, ?_, ?_, ?_, ?_, ?_, ?_, ?_⟩ <;>
    simp [goValueToAst, GoToRego, goTypeName]

/-- Claim C2 (code evaluated at the failing input): encoding the map
with element type `struct` marker and keys `foo`, `bar` produces an
Object (with empty-object values), not a Set — contradicting the claim
and the repository's own encoder test; the decoding direction (that a
Set of those strings decodes into the presence-only map) does hold. -/
theorem claim_C2_set_idiom :
    goValueToAst (.vmap (some [(.vstr "foo", .vstruct []), (.vstr "bar", .vstruct [])]))
      = .ok (.obj [(.str "foo", .obj []), (.str "bar", .obj [])])
    ∧ RegoToGo (.mapT .string (.structT [])) (.set [.str "foo", .str "bar"])
      = .ok (.vmap (some [(.vstr "foo", .vstruct []), (.vstr "bar", .vstruct [])]))
    ∧ (∀ xs : List RegoValue,
        RegoValue.obj [(.str "foo", .obj []), (.str "bar", .obj [])] ≠ RegoValue.set xs) := by
  refine ⟨?_, ?_, ?_⟩
  · simp [goValueToAst, List.attach, List.attachWith, List.pmap, List.mapM, List.mapM.loop,
      Except.bind, bind, pure, Except.pure, Functor.map, Except.map]
  · simp [RegoToGo, convertRegoObjectOrSetToMap, List.mapM, List.mapM.loop,
      Except.bind, bind, pure, Except.pure, Functor.map, Except.map]
  · intro xs h
    nomatch h

/-- Did a conversion return an error. -/
def isError {α : Type} (r : Except String α) : Bool :=
  match r with
  | .error _ => true
  | .ok _ => false

/-- Smallest representable value of a signed width (`reflect.Int` is
64 bits wide). -/
def intMinW : IntW → Int
  | .i => -(2 ^ 63)
  | .i8 => -128
  | .i16 => -32768
  | .i32 => -2147483648
  | .i64 => -(2 ^ 63)

/-- Largest representable value of a signed width. -/
def intMaxW : IntW → Int
  | .i => 2 ^ 63 - 1
  | .i8 => 127
  | .i16 => 32767
  | .i32 => 2147483647
  | .i64 => 2 ^ 63 - 1

/-- Largest representable value of an unsigned width. -/
def uintMaxW : UintW → Nat
  | .u => 2 ^ 64 - 1
  | .u8 => 255
  | .u16 => 65535
  | .u32 => 4294967295
  | .u64 => 2 ^ 64 - 1

theorem readDigits_cons_nondigit {c : Char} (rest : List Char)
    (h : isDigitChar c = false) : readDigits (c :: rest) = none := by
  unfold readDigits
  rw [if_neg]
  simp [h]

theorem readSigned_cases {cs : List Char} {n : Int} (h : readSigned cs = some n) :
    (∃ rest m, cs = '-' :: rest ∧ readDigits rest = some m ∧ n = -(m : Int))
    ∨ (∃ rest m, cs = '+' :: rest ∧ readDigits rest = some m ∧ n = (m : Int))
    ∨ (∃ m, readDigits cs = some m ∧ n = (m : Int)) := by
  match cs, h with
  | c :: rest, h =>
    simp only [readSigned] at h
    by_cases hm : c = '-'
    · subst hm
      rw [if_pos rfl] at h
      match hr : readDigits rest, h with
      | some m, h =>
          left
          refine ⟨rest, m, rfl, hr, ?_⟩
          simp at h
          omega
      | none, h => exact absurd h (by simp)
    · rw [if_neg hm] at h
      by_cases hp : c = '+'
      · subst hp
        rw [if_pos rfl] at h
        match hr : readDigits rest, h with
        | some m, h =>
            right; left
            refine ⟨rest, m, rfl, hr, ?_⟩
            simp at h
            omega
        | none, h => exact absurd h (by simp)
      · rw [if_neg hp] at h
        match hr : readDigits (c :: rest), h with
        | some m, h =>
            right; right
            refine ⟨m, rfl, ?_⟩
            simp at h
            omega
        | none, h => exact absurd h (by simp)

theorem readDigits_none_of_readSigned_none {cs : List Char} (h : readSigned cs = none) :
    readDigits cs = none := by
  match cs with
  | [] => rfl
  | c :: rest =>
    by_cases hm : c = '-'
    · subst hm
      exact readDigits_cons_nondigit (c := '-') rest (by decide)
    · by_cases hp : c = '+'
      · subst hp
        exact readDigits_cons_nondigit (c := '+') rest (by decide)
      · simp only [readSigned, if_neg hm, if_neg hp] at h
        cases hrd : readDigits (c :: rest) with
        | none => rfl
        | some m => rw [hrd] at h; simp at h

theorem parse_int_out_of_range (w : IntW) (s : String) (n : Int)
    (hr : readSigned s.data = some n) (hout : n < intMinW w ∨ intMaxW w < n) :
    isError (parseRegoNumberInto (.int w) s) = true := by
  simp only [parseRegoNumberInto, goParseInt64, hr]
  by_cases h64 : n < -(2 ^ 63 : Int) ∨ (2 ^ 63 : Int) - 1 < n
  · rw [if_pos h64]
    rfl
  · rw [if_neg h64]
    push_neg at h64
    cases w with
    | i => exfalso; simp [intMinW, intMaxW] at hout; omega
    | i64 => exfalso; simp [intMinW, intMaxW] at hout; omega
    | i8 =>
        simp only [intMinW, intMaxW] at hout
        simp only [if_pos hout]
        rfl
    | i16 =>
        simp only [intMinW, intMaxW] at hout
        simp only [if_pos hout]
        rfl
    | i32 =>
        simp only [intMinW, intMaxW] at hout
        simp only [if_pos hout]
        rfl

theorem parse_uint_out_of_range (w : UintW) (s : String) (n : Int)
    (hr : readSigned s.data = some n) (hout : n < 0 ∨ (uintMaxW w : Int) < n) :
    isError (parseRegoNumberInto (.uint w) s) = true := by
  rcases readSigned_cases hr with ⟨rest, m, hcs, hrd, hn⟩ | ⟨rest, m, hcs, hrd, hn⟩ |
    ⟨m, hrd, hn⟩
  · simp only [parseRegoNumberInto, goParseUint64, hcs,
      readDigits_cons_nondigit (c := '-') rest (by decide)]
    rfl
  · simp only [parseRegoNumberInto, goParseUint64, hcs,
      readDigits_cons_nondigit (c := '+') rest (by decide)]
    rfl
  · subst hn
    simp only [parseRegoNumberInto, goParseUint64, hrd]
    have hm : (uintMaxW w : Int) < m := by
      rcases hout with h | h
      · omega
      · exact h
    by_cases h64 : (2 ^ 64 : Nat) - 1 < m
    · rw [if_pos h64]
      rfl
    · rw [if_neg h64]
      cases w with
      | u => exfalso; simp [uintMaxW] at hm; omega
      | u64 => exfalso; simp [uintMaxW] at hm; omega
      | u8 =>
          have hb : (255 : Nat) < m := by simp [uintMaxW] at hm; omega
          simp [isError, hb]
      | u16 =>
          have hb : (65535 : Nat) < m := by simp [uintMaxW] at hm; omega
          simp [isError, hb]
      | u32 =>
          have hb : (4294967295 : Nat) < m := by simp [uintMaxW] at hm; omega
          simp [isError, hb]

/-- Claim C6: decoding Number text 300 into an 8-bit signed target fails
with the range error, 100 succeeds with value 100, and in general for
every signed and unsigned width a Number whose parsed value lies
outside the representable range is rejected with an error (the explicit
out-of-range message for the narrow widths, the strconv range error for
the 64-bit ones). -/
theorem claim_C6_numeric_range :
    parseRegoNumberInto (.int .i8) "300" = .error "int8 out of range 300"
    ∧ parseRegoNumberInto (.int .i8) "100" = .ok (.vint .i8 100)
    ∧ (∀ (w : IntW) (s : String) (n : Int), readSigned s.data = some n →
        (n < intMinW w ∨ intMaxW w < n) → isError (parseRegoNumberInto (.int w) s) = true)
    ∧ (∀ (w : UintW) (s : String) (n : Int), readSigned s.data = some n →
        (n < 0 ∨ (uintMaxW w : Int) < n) → isError (parseRegoNumberInto (.uint w) s) = true) :=
  ⟨rfl, rfl, parse_int_out_of_range, parse_uint_out_of_range⟩

/-- Claim C6 witness: concrete instantiations of the general range
statements at width 8 and text 300. -/
theorem claim_C6_numeric_range_witness :
    (readSigned ("300" : String).data = some 300
      ∧ ((300 : Int) < intMinW .i8 ∨ intMaxW .i8 < 300)
      ∧ isError (parseRegoNumberInto (.int .i8) "300") = true)
    ∧ (readSigned ("300" : String).data = some 300
      ∧ ((300 : Int) < 0 ∨ (uintMaxW .u8 : Int) < 300)
      ∧ isError (parseRegoNumberInto (.uint .u8) "300") = true) :=
  ⟨⟨by decide, by decide,
    claim_C6_numeric_range.2.2.1 .i8 "300" 300 (by decide) (by decide)⟩,
   ⟨by decide, by decide,
    claim_C6_numeric_range.2.2.2 .u8 "300" 300 (by decide) (by decide)⟩⟩

/-- Claim C10: for every signed and unsigned integer target, a Number
whose text is not plain base-10 integer syntax (no sign-and-digits
reading) is rejected; concretely, 1.5 and 1e3 fail for integer
targets. -/
theorem claim_C10_integer_syntax :
    (∀ (w : IntW) (s : String), readSigned s.data = none →
      isError (parseRegoNumberInto (.int w) s) = true)
    ∧ (∀ (w : UintW) (s : String), readSigned s.data = none →
      isError (parseRegoNumberInto (.uint w) s) = true)
    ∧ parseRegoNumberInto (.int .i8) "1.5"
      = .error "error parsing integer: strconv.ParseInt: parsing 1.5: invalid syntax"
    ∧ parseRegoNumberInto (.uint .u32) "1e3"
      = .error "error parsing unsigned integer: strconv.ParseUint: parsing 1e3: invalid syntax"
    ∧ readSigned ("1.5" : String).data = none
    ∧ readSigned ("1e3" : String).data = none := by
  refine ⟨?_, ?_, rfl, rfl, by decide, by decide⟩
  · intro w s hr
    simp only [parseRegoNumberInto, goParseInt64, hr]
    rfl
  · intro w s hr
    simp only [parseRegoNumberInto, goParseUint64,
      readDigits_none_of_readSigned_none hr]
    rfl

/-- Claim C10 witness: the general syntax rejection applied to the text
1.5 at the 8-bit signed width. -/
theorem claim_C10_integer_syntax_witness :
    readSigned ("1.5" : String).data = none
    ∧ isError (parseRegoNumberInto (.int .i8) "1.5") = true :=
  ⟨by decide, claim_C10_integer_syntax.1 .i8 "1.5" (by decide)⟩

/-- Claim C3 counterexample: decoding Null into a slice target at the
top-level decode entry returns an error, not the zero value the claim
promises. -/
theorem claim_C3_null_slice_counterexample :
    RegoToGo (.slice .string) .null
      = .error "slice/array conversion error: expected ast.Array (got ast.Null)"
    ∧ (Except.error "slice/array conversion error: expected ast.Array (got ast.Null)"
        ≠ (Except.ok (GoValue.vslice none) : Except String GoValue)) := by
  constructor
  · simp [RegoToGo, convertRegoArrayToSlice, rvTypeName]
  · intro h
    nomatch h

/-- Claim C3 (amended): Null into a pointer target at the top-level
decode yields a nil pointer for every pointee type; in nested positions
(the general assignment) Null yields the zero value for slice, map and
interface targets, a nil pointer for pointer targets except
`*decimal.NullDecimal` (which becomes a non-nil pointer to the invalid
NullDecimal), and an error for the non-nullable scalar kinds; at the
top level, Null into slice and map targets is a type-mismatch error and
any interface target fails with the no-type-information error. -/
theorem claim_C3_null_nilability :
    (∀ t, RegoToGo (.ptr t) .null = .ok (.vptr none))
    ∧ (∀ t, assignRegoValueToGo (.slice t) .null = .ok (.vslice none))
    ∧ (∀ k e, assignRegoValueToGo (.mapT k e) .null = .ok (.vmap none))
    ∧ assignRegoValueToGo .iface .null = .ok (.viface none)
    ∧ assignRegoValueToGo (.ptr .nullDecimalT) .null
        = .ok (.vptr (some (.vnullDecimal false ⟨0, 0⟩)))
    ∧ assignRegoValueToGo .bool .null = .error "null is not allowed for type bool"
    ∧ assignRegoValueToGo .string .null = .error "null is not allowed for type string"
    ∧ (∀ w, assignRegoValueToGo (.int w) .null
        = .error ("null is not allowed for type " ++ tyName (.int w)))
    ∧ (∀ w, assignRegoValueToGo (.uint w) .null
        = .error ("null is not allowed for type " ++ tyName (.uint w)))
    ∧ (∀ w, assignRegoValueToGo (.float w) .null
        = .error ("null is not allowed for type " ++ tyName (.float w)))
    ∧ RegoToGo .bool .null = .error "null is not allowed for type bool"
    ∧ RegoToGo .string .null = .error "null is not allowed for type string"
    ∧ (∀ w, RegoToGo (.int w) .null = .error ("null is not allowed for type " ++ tyName (.int w)))
    ∧ (∀ t, RegoToGo (.slice t) .null
        = .error "slice/array conversion error: expected ast.Array (got ast.Null)")
    ∧ (∀ k e, RegoToGo (.mapT k e) .null
        = .error "map conversion error: expected ast.Object (got ast.Null)")
    ∧ (∀ v, RegoToGo .iface v = .error "no type information available") := by
  refine ⟨?_, ?_, ?_, ?_, ?_, ?_, ?_, ?_, ?_, ?_, ?_, ?_, ?_, ?_, ?_, ?_⟩ <;>
    first
    | (intro w
       cases w <;>
         simp [RegoToGo, assignRegoValueToGo, convertRegoToNullDecimal,
           convertRegoArrayToSlice, convertRegoObjectOrSetToMap, rvTypeName, tyName])
    | (intros
       simp [RegoToGo, assignRegoValueToGo, convertRegoToNullDecimal,
         convertRegoArrayToSlice, convertRegoObjectOrSetToMap, rvTypeName, tyName])

/-- Claim C4 counterexample: the adapter built for two boolean
parameters, invoked with three terms, does not return an arity error —
it converts the first two terms, invokes the wrapped function, and
returns its encoded result. -/
theorem claim_C4_extra_terms_counterexample :
    FnWrap2 .bool .bool (fun _ _ => .ok (.vbool true)) [.bool true, .bool false, .str "extra"]
      = .ok (.bool true) := by
  simp [FnWrap2, fnWrap2Convert, RegoToGo, assignRegoValueToGo, GoToRego, goValueToAst]

/-- Claim C4 (amended): every adapter rejects a call with fewer than N
terms with an arity error, without invoking the wrapped function (the
result does not depend on it); a call with more than N terms is not
rejected — the first N terms are converted, the extras ignored, and
the wrapped function is invoked. -/
theorem claim_C4_arity :
    (∀ t1 terms, terms.length < 1 → fnWrap1Convert t1 terms
      = .error ("expected 1 argument, got " ++ String.mk (natChars terms.length)))
    ∧ (∀ t1 t2 terms, terms.length < 2 → fnWrap2Convert t1 t2 terms
      = .error ("expected 2 arguments, got " ++ String.mk (natChars terms.length)))
    ∧ (∀ t1 t2 t3 terms, terms.length < 3 → fnWrap3Convert t1 t2 t3 terms
      = .error ("expected 3 arguments, got " ++ String.mk (natChars terms.length)))
    ∧ (∀ t1 t2 t3 t4 terms, terms.length < 4 → fnWrap4Convert t1 t2 t3 t4 terms
      = .error ("expected 4 arguments, got " ++ String.mk (natChars terms.length)))
    ∧ (∀ t1 t2 t3 t4 t5 terms, terms.length < 5 → fnWrap5Convert t1 t2 t3 t4 t5 terms
      = .error ("expected 5 arguments, got " ++ String.mk (natChars terms.length)))
    ∧ (∀ t1 t2 fn terms, terms.length < 2 → FnWrap2 t1 t2 fn terms
      = .error ("expected 2 arguments, got " ++ String.mk (natChars terms.length)))
    ∧ (∀ t1 t2 fn terms, terms.length < 2 → FnWrap2_ t1 t2 fn terms
      = .error ("expected 2 arguments, got " ++ String.mk (natChars terms.length)))
    ∧ FnWrap2 .bool .bool (fun _ _ => .ok (.vstr "ran")) [.bool true, .bool false, .bool true]
      = .ok (.str "ran") := by
  refine ⟨?_, ?_, ?_, ?_, ?_, ?_, ?_, ?_⟩
  · intro t1 terms h
    simp [fnWrap1Convert, if_pos h]
  · intro t1 t2 terms h
    simp [fnWrap2Convert, if_pos h]
  · intro t1 t2 t3 terms h
    simp [fnWrap3Convert, if_pos h]
  · intro t1 t2 t3 t4 terms h
    simp [fnWrap4Convert, if_pos h]
  · intro t1 t2 t3 t4 t5 terms h
    simp [fnWrap5Convert, if_pos h]
  · intro t1 t2 fn terms h
    simp [FnWrap2, fnWrap2Convert, if_pos h]
  · intro t1 t2 fn terms h
    simp [FnWrap2_, fnWrap2Convert, if_pos h]
  · simp [FnWrap2, fnWrap2Convert, RegoToGo, assignRegoValueToGo, GoToRego, goValueToAst]

/-- Claim C4 witness: the two-argument adapters reject one term with
the arity error. -/
theorem claim_C4_arity_witness :
    ([RegoValue.null].length < 2)
    ∧ fnWrap2Convert .bool .bool [RegoValue.null] = .error "expected 2 arguments, got 1"
    ∧ FnWrap2 .bool .bool (fun _ _ => .ok (.vbool true)) [RegoValue.null]
      = .error "expected 2 arguments, got 1" :=
  ⟨by decide,
   (by simpa using (claim_C4_arity.2.1 .bool .bool [RegoValue.null] (by decide))),
   (by simpa using (claim_C4_arity.2.2.2.2.2.1 .bool .bool
     (fun _ _ => .ok (.vbool true)) [RegoValue.null] (by decide)))⟩

/-- Claim C5: encoding a decimal yields the Number with its normalized
text (trailing zeros trimmed by `Decimal.String`), and decoding that
Number back into the decimal type succeeds with a value numerically
equal to the original — for every decimal whose exponent fits in an
`int32`, as in the Go representation.  Concretely, 123.4500000 encodes
as the text 123.45 and decodes back to the same numeric value. -/
theorem claim_C5_decimal_roundtrip (d : Dec) (hlo : -(2 ^ 31 : Int) ≤ d.exp)
    (hhi : d.exp ≤ (2 ^ 31 : Int) - 1) :
    goValueToAst (.vdecimal d) = .ok (.num (decString d))
    ∧ (∃ d2 : Dec, convertRegoNumberToDecimal (.num (decString d)) = .ok (.vdecimal d2)
        ∧ d2.toRat = d.toRat)
    ∧ decString ⟨1234500000, -7⟩ = "123.45"
    ∧ convertRegoNumberToDecimal (.num "123.45") = .ok (.vdecimal ⟨12345, -2⟩)
    ∧ Dec.toRat ⟨12345, -2⟩ = Dec.toRat ⟨1234500000, -7⟩ := by
  refine ⟨?_, ?_, by decide, rfl, ?_⟩
  · simp [goValueToAst]
  · obtain ⟨d2, hp, hr⟩ := newFromString_decString d hlo hhi
    refine ⟨d2, ?_, hr⟩
    simp [convertRegoNumberToDecimal, hp]
  · show (12345 : ℚ) * (10 : ℚ) ^ (-2 : Int) = (1234500000 : ℚ) * (10 : ℚ) ^ (-7 : Int)
    rw [show ((-2 : Int)) = -((2 : Nat) : Int) by norm_num,
      show ((-7 : Int)) = -((7 : Nat) : Int) by norm_num,
      zpow_neg, zpow_neg, zpow_natCast, zpow_natCast]
    norm_num

/-- Claim C5 witness: the round trip applied to the decimal
1234500000 times ten to the minus seventh, which is 123.4500000. -/
theorem claim_C5_decimal_roundtrip_witness :
    (-(2 ^ 31 : Int) ≤ (Dec.mk 1234500000 (-7)).exp
      ∧ (Dec.mk 1234500000 (-7)).exp ≤ (2 ^ 31 : Int) - 1)
    ∧ (goValueToAst (.vdecimal ⟨1234500000, -7⟩)
        = .ok (.num (decString ⟨1234500000, -7⟩))
      ∧ (∃ d2 : Dec, convertRegoNumberToDecimal (.num (decString ⟨1234500000, -7⟩))
          = .ok (.vdecimal d2) ∧ d2.toRat = Dec.toRat ⟨1234500000, -7⟩)
      ∧ decString ⟨1234500000, -7⟩ = "123.45"
      ∧ convertRegoNumberToDecimal (.num "123.45") = .ok (.vdecimal ⟨12345, -2⟩)
      ∧ Dec.toRat ⟨12345, -2⟩ = Dec.toRat ⟨1234500000, -7⟩) :=
  ⟨⟨by decide, by decide⟩,
   claim_C5_decimal_roundtrip ⟨1234500000, -7⟩ (by decide) (by decide)⟩

/-- The struct-encoding evaluation simp set is shared by these proofs. -/
theorem claim_C7_skip_field_counterexample :
    convertRegoObjectToStruct [("F", "-", true, .int .i8)] (.obj [(.str "", .num "42")])
      = .ok (.vstruct [(("F", "-", true), .vint .i8 42)])
    ∧ GoValue.vint .i8 42 ≠ zeroValue (.int .i8) := by
  constructor
  · simp [convertRegoObjectToStruct, List.attach, List.attachWith, List.pmap, List.mapM,
      List.mapM.loop, Except.bind, bind, pure, Except.pure, objGet, rvBeq, getStructFieldKey,
      fName, fTag, fExported, fTy, assignRegoValueToGo, parseRegoNumberInto, goParseInt64,
      readSigned, readDigits, isDigitChar, charVal, valBE]
  · simp [zeroValue]

theorem find?_eq_none_of_all {α : Type} {p : α → Bool} {l : List α}
    (h : ∀ a ∈ l, p a = false) : l.find? p = none := by
  induction l with
  | nil => rfl
  | cons x xs ih =>
    rw [List.find?_cons, h x (List.mem_cons_self x xs)]
    exact ih (fun a ha => h a (List.mem_cons_of_mem x ha))

/-- Claim C7 (amended): a struct field is emitted by the encoder iff it
is exported and its computed key — the first comma-separated component
of the json tag when the tag is nonempty, else the field name — is
nonempty, and it is emitted under that key; a field tagged with skip
(or with an empty first tag component) is never emitted.  The decoder
skips unexported fields and looks exported fields up by the same
computed key, so a skip-tagged field, whose computed key is the empty
string, is populated exactly when the object carries an entry with the
empty-string key, and stays at its zero value otherwise. -/
theorem claim_C7_field_keys :
    (∀ (name tag : String) (exported : Bool) (fv : GoValue) (out : RegoValue),
      goValueToAst fv = .ok out →
      goValueToAst (.vstruct [((name, tag, exported), fv)]) =
        .ok (.obj (if exported = true ∧ getStructFieldKey name tag ≠ ""
          then [(.str (getStructFieldKey name tag), out)] else [])))
    ∧ (∀ name, getStructFieldKey name "" = name)
    ∧ getStructFieldKey "F" "renamed" = "renamed"
    ∧ getStructFieldKey "F" "renamed,omitempty" = "renamed"
    ∧ getStructFieldKey "F" "-" = ""
    ∧ getStructFieldKey "F" ",omitempty" = ""
    ∧ goValueToAst (.vstruct [(("F", "-", true), .vbool true)]) = .ok (.obj [])
    ∧ goValueToAst (.vstruct [(("f", "", false), .vbool true)]) = .ok (.obj [])
    ∧ convertRegoObjectToStruct [("F", "renamed", true, .bool)]
        (.obj [(.str "renamed", .bool true)])
        = .ok (.vstruct [(("F", "renamed", true), .vbool true)])
    ∧ convertRegoObjectToStruct [("f", "", false, .bool)] (.obj [(.str "f", .bool true)])
        = .ok (.vstruct [(("f", "", false), .vbool false)])
    ∧ (∀ kvs, (∀ kv ∈ kvs, rvBeq kv.1 (.str "") = false) →
        convertRegoObjectToStruct [("F", "-", true, .int .i8)] (.obj kvs)
          = .ok (.vstruct [(("F", "-", true), .vint .i8 0)])) := by
  refine ⟨?_, ?_, by decide, by decide, by decide, by decide, ?_, ?_, ?_, ?_, ?_⟩
  · intro name tag exported fv out hfv
    cases exported with
    | false =>
        simp [goValueToAst, List.attach, List.attachWith, List.pmap, List.foldlM]
    | true =>
        by_cases hkey : getStructFieldKey name tag = ""
        · simp [goValueToAst, List.attach, List.attachWith, List.pmap, List.foldlM, hkey]
        · simp [goValueToAst, List.attach, List.attachWith, List.pmap, List.foldlM, hkey, hfv,
            Except.bind, bind, pure, Except.pure]
  · intro name
    simp [getStructFieldKey]
  · simp [goValueToAst, List.attach, List.attachWith, List.pmap, List.foldlM,
      getStructFieldKey]
  · simp [goValueToAst, List.attach, List.attachWith, List.pmap, List.foldlM]
  · simp [convertRegoObjectToStruct, List.attach, List.attachWith, List.pmap, List.mapM,
      List.mapM.loop, Except.bind, bind, pure, Except.pure, objGet, rvBeq, getStructFieldKey,
      fName, fTag, fExported, fTy, assignRegoValueToGo]
  · simp [convertRegoObjectToStruct, List.attach, List.attachWith, List.pmap, List.mapM,
      List.mapM.loop, Except.bind, bind, pure, Except.pure, objGet, rvBeq, getStructFieldKey,
      fName, fTag, fExported, fTy, zeroValue]
  · intro kvs h
    have hget : objGet kvs (.str "") = none := by
      unfold objGet
      rw [find?_eq_none_of_all h]
      rfl
    have hkey : getStructFieldKey "F" "-" = "" := by decide
    simp [convertRegoObjectToStruct, List.attach, List.attachWith, List.pmap, List.mapM,
      List.mapM.loop, Except.bind, bind, pure, Except.pure, fName, fTag, fExported, fTy,
      hkey, hget, zeroValue]

/-- Claim C7 witness: the encoder emission rule applied to a renamed
boolean field, and the decoder zero-preservation applied to an object
without an empty-string key. -/
theorem claim_C7_field_keys_witness :
    (goValueToAst (.vbool true) = .ok (.bool true)
      ∧ goValueToAst (.vstruct [(("F", "renamed", true), .vbool true)]) =
          .ok (.obj (if true = true ∧ getStructFieldKey "F" "renamed" ≠ ""
            then [(.str (getStructFieldKey "F" "renamed"), .bool true)] else [])))
    ∧ ((∀ kv ∈ [((RegoValue.str "other"), RegoValue.bool true)], rvBeq kv.1 (.str "") = false)
      ∧ convertRegoObjectToStruct [("F", "-", true, .int .i8)]
          (.obj [(.str "other", .bool true)])
          = .ok (.vstruct [(("F", "-", true), .vint .i8 0)])) :=
  ⟨⟨(by simp [goValueToAst]),
    claim_C7_field_keys.1 "F" "renamed" true (.vbool true) (.bool true) (by simp [goValueToAst])⟩,
   ⟨(by intro kv hkv; simp only [List.mem_singleton] at hkv; subst hkv; simp [rvBeq]),
    claim_C7_field_keys.2.2.2.2.2.2.2.2.2.2 [(.str "other", .bool true)]
      (by intro kv hkv; simp only [List.mem_singleton] at hkv; subst hkv; simp [rvBeq])⟩⟩

theorem exceptMapM_ok_of_forall {α β : Type} (l : List α) (f : α → Except String β)
    (g : α → β) (h : ∀ a ∈ l, f a = .ok (g a)) : l.mapM f = .ok (l.map g) := by
  induction l with
  | nil => rfl
  | cons x xs ih =>
    rw [List.mapM_cons, h x (List.mem_cons_self x xs),
      ih (fun a ha => h a (List.mem_cons_of_mem x ha))]
    rfl

theorem exceptMapM_congr {α β : Type} (l : List α) (f g : α → Except String β)
    (h : ∀ a ∈ l, f a = g a) : l.mapM f = l.mapM g := by
  induction l with
  | nil => rfl
  | cons x xs ih =>
    rw [List.mapM_cons, List.mapM_cons, h x (List.mem_cons_self x xs),
      ih (fun a ha => h a (List.mem_cons_of_mem x ha))]

theorem objGet_append_of_none (kvs extra : List (RegoValue × RegoValue)) (k : RegoValue)
    (h : ∀ kv ∈ extra, rvBeq kv.1 k = false) :
    objGet (kvs ++ extra) k = objGet kvs k := by
  unfold objGet
  rw [List.find?_append, find?_eq_none_of_all h]
  cases kvs.find? (fun kv => rvBeq kv.1 k) <;> rfl

/-- Claim C8: decoding an Object into a struct leaves each field whose
key is absent at its zero value (in particular the empty Object decodes
to the zero struct), ignores entries whose keys match no field key, and
when a present field value fails to decode the error message names the
offending field. -/
theorem claim_C8_struct_partiality :
    (∀ fields, convertRegoObjectToStruct fields (.obj [])
      = .ok (zeroValue (.structT fields)))
    ∧ (∀ fields kvs extra,
        (∀ kv ∈ extra, ∀ f ∈ fields,
          rvBeq kv.1 (.str (getStructFieldKey (fName f) (fTag f))) = false) →
        convertRegoObjectToStruct fields (.obj (kvs ++ extra))
          = convertRegoObjectToStruct fields (.obj kvs))
    ∧ convertRegoObjectToStruct [("A", "", true, .bool), ("B", "", true, .string)]
        (.obj [(.str "A", .bool true)])
        = .ok (.vstruct [(("A", "", true), .vbool true), (("B", "", true), .vstr "")])
    ∧ convertRegoObjectToStruct [("A", "", true, .bool), ("B", "", true, .int .i8)]
        (.obj [(.str "A", .bool true), (.str "B", .str "x")])
        = .error
          "error converting field B: number conversion error: expected ast.Number (got ast.String)" := by
  refine ⟨?_, ?_, ?_, ?_⟩
  · intro fields
    have hrun : fields.attach.mapM (fun f =>
        if fExported f.1 then
          match objGet [] (.str (getStructFieldKey (fName f.1) (fTag f.1))) with
          | none => Except.ok ((fName f.1, fTag f.1, fExported f.1), zeroValue (fTy f.1))
          | some tv =>
              match assignRegoValueToGo (fTy f.1) tv with
              | .error e =>
                  Except.error ("error converting field " ++ fName f.1 ++ ": " ++ e)
              | .ok gv => Except.ok ((fName f.1, fTag f.1, fExported f.1), gv)
        else Except.ok ((fName f.1, fTag f.1, fExported f.1), zeroValue (fTy f.1)))
        = .ok (fields.attach.map (fun f =>
            ((fName f.1, fTag f.1, fExported f.1), zeroValue (fTy f.1)))) := by
      apply exceptMapM_ok_of_forall
      intro f _
      cases hexp : fExported f.1 <;> simp [objGet, hexp]
    simp only [convertRegoObjectToStruct, hrun, Except.bind, bind, zeroValue]
  · intro fields kvs extra h
    simp only [convertRegoObjectToStruct]
    congr 1
    apply exceptMapM_congr
    intro f _
    have hg : objGet (kvs ++ extra) (.str (getStructFieldKey (fName f.1) (fTag f.1)))
        = objGet kvs (.str (getStructFieldKey (fName f.1) (fTag f.1))) := by
      apply objGet_append_of_none
      intro kv hkv
      exact h kv hkv f.1 f.2
    rw [hg]
  · simp [convertRegoObjectToStruct, List.attach, List.attachWith, List.pmap, List.mapM,
      List.mapM.loop, Except.bind, bind, pure, Except.pure, objGet, rvBeq, getStructFieldKey,
      fName, fTag, fExported, fTy, assignRegoValueToGo, zeroValue]
  · simp [convertRegoObjectToStruct, List.attach, List.attachWith, List.pmap, List.mapM,
      List.mapM.loop, Except.bind, bind, pure, Except.pure, objGet, rvBeq, getStructFieldKey,
      fName, fTag, fExported, fTy, assignRegoValueToGo, rvTypeName]

/-- Claim C8 witness: the zero-filling and the extra-key statements
applied to a one-field struct and one unknown key. -/
theorem claim_C8_struct_partiality_witness :
    convertRegoObjectToStruct [("A", "", true, .bool)] (.obj [])
      = .ok (zeroValue (.structT [("A", "", true, .bool)]))
    ∧ ((∀ kv ∈ [((RegoValue.str "Z"), RegoValue.null)], ∀ f ∈ [("A", "", true, GoType.bool)],
        rvBeq kv.1 (.str (getStructFieldKey (fName f) (fTag f))) = false)
      ∧ convertRegoObjectToStruct [("A", "", true, .bool)]
          (.obj ([(.str "A", .bool true)] ++ [(.str "Z", .null)]))
          = convertRegoObjectToStruct [("A", "", true, .bool)]
              (.obj [(.str "A", .bool true)])) :=
  ⟨claim_C8_struct_partiality.1 [("A", "", true, .bool)],
   ⟨(by intro kv hkv f hf
        simp only [List.mem_singleton] at hkv hf
        subst hkv
        subst hf
        simp [rvBeq, getStructFieldKey, fName, fTag]),
    claim_C8_struct_partiality.2.1 [("A", "", true, .bool)] [(.str "A", .bool true)]
      [(.str "Z", .null)]
      (by intro kv hkv f hf
          simp only [List.mem_singleton] at hkv hf
          subst hkv
          subst hf
          simp [rvBeq, getStructFieldKey, fName, fTag])⟩⟩

/-- A rule qualifies for a synthesized default: no arguments and
treated as an if-rule. -/
def qualifies (r : Rule) : Bool := (r.head.args == 0) && isIfRule r

/-- The rules appended by the second pass of `addDefaultFalse`, given
the set of references already carrying a default. -/
def newDefaults : List Rule → List String → List Rule
  | [], _ => []
  | r :: rs, ex =>
      if 0 < r.head.args then newDefaults rs ex
      else if isIfRule r then
        match r.head.reference with
        | none => newDefaults rs ex
        | some refStr =>
            if refStr ∈ ex then newDefaults rs ex
            else mkDefaultRule refStr :: newDefaults rs (refStr :: ex)
      else newDefaults rs ex

theorem foldl_addDefaultStep_eq (rules : List Rule) :
    ∀ (ex : List String) (acc : List Rule),
      (rules.foldl addDefaultStep (ex, acc)).2 = acc ++ newDefaults rules ex := by
  induction rules with
  | nil => intro ex acc; simp [newDefaults]
  | cons r rs ih =>
    intro ex acc
    rw [List.foldl_cons]
    unfold newDefaults
    by_cases hargs : 0 < r.head.args
    · have hstep : addDefaultStep (ex, acc) r = (ex, acc) := by
        unfold addDefaultStep; rw [if_pos hargs]
      rw [hstep, if_pos hargs]
      exact ih ex acc
    · rw [if_neg hargs]
      by_cases hif : isIfRule r = true
      · rw [if_pos hif]
        cases href : r.head.reference with
        | none =>
            have hstep : addDefaultStep (ex, acc) r = (ex, acc) := by
              unfold addDefaultStep; rw [if_neg hargs, if_pos hif, href]
            rw [hstep]
            exact ih ex acc
        | some refStr =>
            by_cases hex : refStr ∈ ex
            · have hstep : addDefaultStep (ex, acc) r = (ex, acc) := by
                unfold addDefaultStep; rw [if_neg hargs, if_pos hif, href]
                simp only [hex, if_true]
              rw [hstep]
              simp only [hex, if_true]
              exact ih ex acc
            · have hstep : addDefaultStep (ex, acc) r =
                  (refStr :: ex, acc ++ [mkDefaultRule refStr]) := by
                unfold addDefaultStep; rw [if_neg hargs, if_pos hif, href]
                simp only [hex, if_false]
              rw [hstep]
              simp only [hex, if_false]
              rw [ih (refStr :: ex) (acc ++ [mkDefaultRule refStr])]
              simp
      · have hstep : addDefaultStep (ex, acc) r = (ex, acc) := by
          unfold addDefaultStep; rw [if_neg hargs, if_neg hif]
        rw [hstep, if_neg hif]
        exact ih ex acc

theorem addDefaultFalse_eq (rules : List Rule) :
    addDefaultFalse rules = rules ++ newDefaults rules (existingDefaults rules) := by
  unfold addDefaultFalse
  rw [foldl_addDefaultStep_eq rules (existingDefaults rules) []]
  rfl

theorem newDefaults_shape (rules : List Rule) (ex : List String) :
    ∀ r2 ∈ newDefaults rules ex, ∃ refStr, r2 = mkDefaultRule refStr := by
  induction rules generalizing ex with
  | nil => simp [newDefaults]
  | cons r rs ih =>
    intro r2 hr2
    unfold newDefaults at hr2
    by_cases hargs : 0 < r.head.args
    · rw [if_pos hargs] at hr2
      exact ih ex r2 hr2
    · rw [if_neg hargs] at hr2
      by_cases hif : isIfRule r = true
      · rw [if_pos hif] at hr2
        cases href : r.head.reference with
        | none => rw [href] at hr2; exact ih ex r2 hr2
        | some refStr =>
            rw [href] at hr2
            by_cases hex : refStr ∈ ex
            · simp only [hex, if_true] at hr2
              exact ih ex r2 hr2
            · simp only [hex, if_false] at hr2
              rcases List.mem_cons.mp hr2 with rfl | h
              · exact ⟨refStr, rfl⟩
              · exact ih (refStr :: ex) r2 h
      · rw [if_neg hif] at hr2
        exact ih ex r2 hr2


theorem newDefaults_countP (rules : List Rule) (ref : String) :
    ∀ ex : List String,
      (newDefaults rules ex).countP (fun r2 => r2.head.reference == some ref) =
        if ref ∈ ex then 0
        else if rules.any (fun r => qualifies r && (r.head.reference == some ref)) then 1
        else 0 := by
  induction rules with
  | nil =>
    intro ex
    simp [newDefaults]
  | cons r rs ih =>
    intro ex
    unfold newDefaults
    by_cases hargs : 0 < r.head.args
    · rw [if_pos hargs, ih ex]
      have hq : qualifies r = false := by
        apply Bool.eq_false_iff.mpr
        intro h
        unfold qualifies at h
        rw [Bool.and_eq_true] at h
        have h0 : r.head.args = 0 := by simpa using h.1
        omega
      simp [List.any_cons, hq]
    · rw [if_neg hargs]
      have h0 : r.head.args = 0 := by omega
      by_cases hif : isIfRule r = true
      · rw [if_pos hif]
        have hq : qualifies r = true := by
          unfold qualifies
          rw [Bool.and_eq_true]
          exact ⟨by simp [h0], hif⟩
        cases href : r.head.reference with
        | none =>
            rw [ih ex]
            simp [List.any_cons, href, hq]
        | some refStr =>
            by_cases hex : refStr ∈ ex
            · simp only [hex, if_true]
              rw [ih ex]
              by_cases heq : refStr = ref
              · subst heq
                simp [List.any_cons, hq, href, hex]
              · have hne : ((some refStr : Option String) == some ref) = false := by
                  simp [heq]
                simp [List.any_cons, hq, href, hne]
            · simp only [hex, if_false]
              rw [List.countP_cons, ih (refStr :: ex)]
              by_cases heq : refStr = ref
              · subst heq
                have hmem : refStr ∈ refStr :: ex := List.mem_cons_self _ _
                simp [mkDefaultRule, List.any_cons, hq, href, hex, hmem]
              · have hne : ((some refStr : Option String) == some ref) = false := by
                  simp [heq]
                have hmd : ((mkDefaultRule refStr).head.reference == some ref) = false := by
                  simp [mkDefaultRule, heq]
                have hconsmem : (ref ∈ refStr :: ex) ↔ ref ∈ ex := by
                  rw [List.mem_cons]
                  constructor
                  · rintro (h | h)
                    · exact absurd h.symm heq
                    · exact h
                  · exact Or.inr
                rw [if_congr hconsmem rfl rfl]
                simp [List.any_cons, hq, href, hne, hmd]
      · rw [if_neg hif]
        have hq : qualifies r = false := by
          apply Bool.eq_false_iff.mpr
          intro h
          unfold qualifies at h
          rw [Bool.and_eq_true] at h
          exact hif h.2
        rw [ih ex]
        simp [List.any_cons, hq]

theorem existingDefaults_append (a b : List Rule) :
    existingDefaults (a ++ b) = existingDefaults a ++ existingDefaults b := by
  unfold existingDefaults
  rw [List.filter_append, List.map_append]

theorem mem_existingDefaults {r : Rule} {rules : List Rule}
    (hmem : r ∈ rules) (hdef : r.isDefault = true) {ref : String}
    (href : r.head.reference = some ref) : ref ∈ existingDefaults rules := by
  unfold existingDefaults
  apply List.mem_map.mpr
  refine ⟨r, List.mem_filter.mpr ⟨hmem, hdef⟩, ?_⟩
  rw [href]
  rfl

theorem newDefaults_eq_nil_of_covered (rules : List Rule) :
    ∀ ex : List String,
      (∀ r ∈ rules, qualifies r = true →
        ∀ refStr, r.head.reference = some refStr → refStr ∈ ex) →
      newDefaults rules ex = [] := by
  induction rules with
  | nil => intro ex _; rfl
  | cons r rs ih =>
    intro ex hcov
    unfold newDefaults
    by_cases hargs : 0 < r.head.args
    · rw [if_pos hargs]
      exact ih ex (fun r2 h2 => hcov r2 (List.mem_cons_of_mem _ h2))
    · rw [if_neg hargs]
      have h0 : r.head.args = 0 := by omega
      by_cases hif : isIfRule r = true
      · rw [if_pos hif]
        have hq : qualifies r = true := by
          unfold qualifies
          rw [Bool.and_eq_true]
          exact ⟨by simp [h0], hif⟩
        cases href : r.head.reference with
        | none => exact ih ex (fun r2 h2 => hcov r2 (List.mem_cons_of_mem _ h2))
        | some refStr =>
            have hex : refStr ∈ ex := hcov r (List.mem_cons_self _ _) hq refStr href
            simp only [hex, if_true]
            exact ih ex (fun r2 h2 => hcov r2 (List.mem_cons_of_mem _ h2))
      · rw [if_neg hif]
        exact ih ex (fun r2 h2 => hcov r2 (List.mem_cons_of_mem _ h2))

theorem addDefaultFalse_idem (rules : List Rule) :
    addDefaultFalse (addDefaultFalse rules) = addDefaultFalse rules := by
  rw [addDefaultFalse_eq (addDefaultFalse rules)]
  have hnil :
      newDefaults (addDefaultFalse rules) (existingDefaults (addDefaultFalse rules)) = [] := by
    apply newDefaults_eq_nil_of_covered
    intro r hmem hq refStr href
    rw [addDefaultFalse_eq] at hmem
    rcases List.mem_append.mp hmem with hr | hr
    · by_cases hx0 : refStr ∈ existingDefaults rules
      · rw [addDefaultFalse_eq, existingDefaults_append]
        exact List.mem_append_left _ hx0
      · have hany :
            rules.any (fun r => qualifies r && (r.head.reference == some refStr)) = true := by
          apply List.any_eq_true.mpr
          refine ⟨r, hr, ?_⟩
          rw [Bool.and_eq_true]
          exact ⟨hq, by rw [href]; simp⟩
        have hcnt := newDefaults_countP rules refStr (existingDefaults rules)
        rw [if_neg hx0, if_pos hany] at hcnt
        have hpos : 0 < (newDefaults rules (existingDefaults rules)).countP
            (fun r2 => r2.head.reference == some refStr) := by
          rw [hcnt]
          omega
        obtain ⟨r2, hr2mem, hr2p⟩ := List.countP_pos_iff.mp hpos
        obtain ⟨refStr2, rfl⟩ := newDefaults_shape rules _ r2 hr2mem
        have heq : refStr2 = refStr := by simpa [mkDefaultRule] using hr2p
        subst heq
        exact mem_existingDefaults (r := mkDefaultRule refStr2)
          (by rw [addDefaultFalse_eq]; exact List.mem_append_right _ hr2mem) rfl rfl
    · obtain ⟨refStr2, rfl⟩ := newDefaults_shape rules _ r hr
      have heq : refStr2 = refStr := by simpa [mkDefaultRule] using href
      subst heq
      exact mem_existingDefaults (r := mkDefaultRule refStr2)
        (by rw [addDefaultFalse_eq]; exact hmem) rfl rfl
  rw [hnil, List.append_nil]

/-- Claim C9: with the default-false sentinel import present, the
transform appends to the rule list exactly one default rule per
distinct reference of a qualifying (argument-free boolean/if) rule that
lacks an existing default; every appended rule is a `default <ref> =
false` rule; the transform is idempotent; and references carried only
by rules with arguments (function rules) never receive a default. -/
theorem claim_C9 (imports : List String) (rules : List Rule)
    (himp : hasImportRegobrickFeature imports "default_false" = true) :
    parseModuleTransform imports rules =
      rules ++ newDefaults rules (existingDefaults rules) ∧
    (∀ ref : String,
      (newDefaults rules (existingDefaults rules)).countP
          (fun r2 => r2.head.reference == some ref) =
        if ref ∈ existingDefaults rules then 0
        else if rules.any (fun r => qualifies r && (r.head.reference == some ref)) then 1
        else 0) ∧
    (∀ r2 ∈ newDefaults rules (existingDefaults rules),
      ∃ refStr, r2 = mkDefaultRule refStr ∧ r2.isDefault = true ∧
        r2.head.value = some (.bool false)) ∧
    parseModuleTransform imports (parseModuleTransform imports rules) =
      parseModuleTransform imports rules ∧
    (∀ ref : String,
      (∀ r ∈ rules, r.head.reference = some ref → 0 < r.head.args) →
      ∀ r2 ∈ newDefaults rules (existingDefaults rules),
        r2.head.reference ≠ some ref) := by
  refine ⟨?_, ?_, ?_, ?_, ?_⟩
  · unfold parseModuleTransform
    rw [if_pos himp]
    exact addDefaultFalse_eq rules
  · exact fun ref => newDefaults_countP rules ref (existingDefaults rules)
  · intro r2 h2
    obtain ⟨s, rfl⟩ := newDefaults_shape rules _ r2 h2
    exact ⟨s, rfl, rfl, rfl⟩
  · simp only [parseModuleTransform, himp, if_true]
    exact addDefaultFalse_idem rules
  · intro ref hfn r2 h2 hrefeq
    have hany :
        rules.any (fun r => qualifies r && (r.head.reference == some ref)) = false := by
      apply Bool.eq_false_iff.mpr
      intro h
      obtain ⟨r, hr, hp⟩ := List.any_eq_true.mp h
      rw [Bool.and_eq_true] at hp
      have hrr : r.head.reference = some ref := by simpa using hp.2
      have hargs := hfn r hr hrr
      have hq := hp.1
      unfold qualifies at hq
      rw [Bool.and_eq_true] at hq
      have h0 : r.head.args = 0 := by simpa using hq.1
      omega
    have hcnt := newDefaults_countP rules ref (existingDefaults rules)
    rw [hany] at hcnt
    simp only [Bool.false_eq_true, if_false, ite_self] at hcnt
    have hz := List.countP_eq_zero.mp hcnt r2 h2
    apply hz
    rw [hrefeq]
    simp

def c9Imports : List String := ["data.regobrick.default_false"]

def c9Rules : List Rule :=
  [⟨false, ⟨some "data.test.allow", none, 0, some (.bool true)⟩⟩]

theorem claim_C9_witness :
    hasImportRegobrickFeature c9Imports "default_false" = true ∧
    (parseModuleTransform c9Imports c9Rules =
      c9Rules ++ newDefaults c9Rules (existingDefaults c9Rules) ∧
    (∀ ref : String,
      (newDefaults c9Rules (existingDefaults c9Rules)).countP
          (fun r2 => r2.head.reference == some ref) =
        if ref ∈ existingDefaults c9Rules then 0
        else if c9Rules.any (fun r => qualifies r && (r.head.reference == some ref)) then 1
        else 0) ∧
    (∀ r2 ∈ newDefaults c9Rules (existingDefaults c9Rules),
      ∃ refStr, r2 = mkDefaultRule refStr ∧ r2.isDefault = true ∧
        r2.head.value = some (.bool false)) ∧
    parseModuleTransform c9Imports (parseModuleTransform c9Imports c9Rules) =
      parseModuleTransform c9Imports c9Rules ∧
    (∀ ref : String,
      (∀ r ∈ c9Rules, r.head.reference = some ref → 0 < r.head.args) →
      ∀ r2 ∈ newDefaults c9Rules (existingDefaults c9Rules),
        r2.head.reference ≠ some ref)) :=
  ⟨by decide, claim_C9 c9Imports c9Rules (by decide)⟩
